import Mathlib

/-!
Verification of the parklogic traffic-simulation core against its
natural-language specification.

The embedding below is a shallow model of the C++ sources:
  - src/src/systems/TrafficSystem.cpp (second, current revision in the file:
    spawn-request handler, car-spawned handler, game-update/tick handler),
  - src/src/systems/PathPlanner.cpp (GeneratePath and its helpers),
  - src/include/entities/map/Waypoint.hpp and the module/spot data model of
    src/unnamed/part_001 (Modules.hpp).

Modelling conventions:
  - C++ float arithmetic is embedded in `ℚ`.  `Vector2Distance` is used by the
    sources only in comparisons, so it is modelled by the squared Euclidean
    distance `distSq` (squaring is strictly monotone on nonnegative reals, so
    every comparison is preserved).
  - `cosf`, `sinf` and `PI` are transcendental; they are taken as abstract
    parameters `cosQ sinQ : ℚ → ℚ` and `piQ : ℚ`.  No claim depends on their
    values.
  - The named tunable constants of Config.hpp (not among the sources) are a
    `Config` record passed explicitly, as §6 of the spec describes them as
    configuration inputs.
  - Calls to the external randomness source (GetRandomValue) are modelled as
    oracle inputs threaded into each handler.
  - C++ pointers into the module registry are modelled as indices into the
    module list (the representation §9 of the spec itself recommends).
-/

namespace ParkLogic

/-- Spot lifecycle states, from the data model (spec §3) and the
SpotState enum used throughout TrafficSystem.cpp. -/
inductive SpotState
  | FREE
  | RESERVED
  | OCCUPIED
deriving DecidableEq, Repr

/-- The successor function of the documented spot lifecycle cycle
FREE → RESERVED → OCCUPIED → FREE. -/
def cycleNext : SpotState → SpotState
  | .FREE => .RESERVED
  | .RESERVED => .OCCUPIED
  | .OCCUPIED => .FREE

/-- 2-D vector over `ℚ`, embedding raylib Vector2. -/
structure Vec2 where
  x : ℚ
  y : ℚ
deriving DecidableEq, Repr

/-- Vector2Add. -/
def Vec2.add (a b : Vec2) : Vec2 := ⟨a.x + b.x, a.y + b.y⟩

/-- Squared Euclidean distance; stands in for Vector2Distance, which the
modelled code uses only inside order comparisons. -/
def distSq (a b : Vec2) : ℚ :=
  (a.x - b.x) * (a.x - b.x) + (a.y - b.y) * (a.y - b.y)

/-- Waypoint, from src/include/entities/map/Waypoint.hpp. -/
structure Waypoint where
  position : Vec2
  tolerance : ℚ
  id : ℤ
  entryAngle : ℚ
  stopAtEnd : Bool
  speedLimitFactor : ℚ
deriving DecidableEq, Repr

/-- A parkable/chargeable spot of a facility.  Fields follow the data model of
spec §3 (the Spot struct of the current Modules.hpp revision; the copy under
src/unnamed/part_001 is an earlier revision without `state` and `price`,
but TrafficSystem.cpp reads `spot.state` and `spot.price`). -/
structure Spot where
  localPosition : Vec2
  orientation : ℚ
  id : ℤ
  state : SpotState
  price : ℚ
deriving DecidableEq, Repr

/-- Default spot value used to model C++ reads through an index that the
callers have already validated. -/
def defaultSpot : Spot := ⟨⟨0, 0⟩, 0, -1, .FREE, 0⟩

/-- Module subtype tag, replacing the dynamic_cast-based subtype tests of
TrafficSystem.cpp (the closed set of module kinds of Modules.hpp). -/
inductive ModuleKind
  | normalRoad
  | upEntranceRoad
  | downEntranceRoad
  | doubleEntranceRoad
  | smallParking
  | largeParking
  | smallChargingStation
  | largeChargingStation
deriving DecidableEq, Repr

/-- dynamic_cast to SmallParking or LargeParking. -/
def ModuleKind.isParking : ModuleKind → Bool
  | .smallParking => true
  | .largeParking => true
  | _ => false

/-- dynamic_cast to SmallChargingStation or LargeChargingStation. -/
def ModuleKind.isCharging : ModuleKind → Bool
  | .smallChargingStation => true
  | .largeChargingStation => true
  | _ => false

/-- A facility is a parking or charging module. -/
def ModuleKind.isFacility (k : ModuleKind) : Bool := k.isParking || k.isCharging

/-- A module of the map: geometry, spots, and the non-owning back-reference to
its parent road, modelled as an index into the module list. -/
structure Module where
  kind : ModuleKind
  worldPosition : Vec2
  width : ℚ
  height : ℚ
  isTop : Bool
  localWaypoints : List Waypoint
  spots : List Spot
  parentIdx : Option ℕ
deriving DecidableEq, Repr

/-- Module::isUp — virtual, overridden by the four facility classes to return
their isTop flag; roads keep the base-class `false`. -/
def Module.isUp (m : Module) : Bool := if m.kind.isFacility then m.isTop else false

/-- Module::getParent, with the pointer realised as a list lookup. -/
def Module.getParent (modules : List Module) (m : Module) : Option Module :=
  m.parentIdx.bind fun i => modules[i]?

/-- Indices (counting from `n`) of the FREE spots of a spot list. -/
def freeIndicesFrom : ℕ → List Spot → List ℕ
  | _, [] => []
  | n, s :: rest =>
    if s.state = .FREE then n :: freeIndicesFrom (n + 1) rest
    else freeIndicesFrom (n + 1) rest

/-- Indices of the FREE spots of a facility's spot list. -/
def freeIndices (spots : List Spot) : List ℕ := freeIndicesFrom 0 spots

/-- Modelled from the spec: the body of Module::getRandomSpotIndex is not among
the provided sources (src/unnamed/part_001 only declares it).  Spec §4.1:
it returns the index of a uniformly-chosen FREE spot in the facility, or the
sentinel -1 if no spot is FREE.  The uniform draw is the oracle input `r`:
the result is the `(r % count)`-th FREE spot. -/
def Module.getRandomSpotIndex (m : Module) (r : ℕ) : ℤ :=
  let free := freeIndices m.spots
  if free.isEmpty then -1 else ((free.getD (r % free.length) 0 : ℕ) : ℤ)

/-- Module::getSpot — returns the spot at a caller-validated index (reads
through an invalid index yield the default value in the model). -/
def Module.getSpot (m : Module) (idx : ℤ) : Spot := m.spots.getD idx.toNat defaultSpot

/-- Overwrite the state of the spot at position `n`, leaving the rest of the
list unchanged. -/
def setSpotStateList : List Spot → ℕ → SpotState → List Spot
  | [], _, _ => []
  | s :: rest, 0, st => { s with state := st } :: rest
  | s :: rest, n + 1, st => s :: setSpotStateList rest n st

/-- Modelled from the spec: the body of Module::setSpotState is not among the
provided sources.  Spec §4.1: it performs the transition unconditionally —
callers are responsible for respecting the lifecycle ordering. -/
def Module.setSpotState (m : Module) (idx : ℤ) (st : SpotState) : Module :=
  if idx < 0 then m else { m with spots := setSpotStateList m.spots idx.toNat st }

/-- The observability record returned by Module::getSpotCounts. -/
structure SpotCounts where
  free : ℕ
  reserved : ℕ
  occupied : ℕ
deriving DecidableEq, Repr

/-- Modelled from the spec: the body of Module::getSpotCounts is not among the
provided sources.  Spec §4.1: it returns the free/reserved/occupied totals. -/
def Module.getSpotCounts (m : Module) : SpotCounts :=
  ⟨(m.spots.filter fun s => decide (s.state = .FREE)).length,
   (m.spots.filter fun s => decide (s.state = .RESERVED)).length,
   (m.spots.filter fun s => decide (s.state = .OCCUPIED)).length⟩

/-- The state of the spot `si` of the module `fi`, as seen by an observer of
the module registry. -/
def spotAt (modules : List Module) (fi si : ℕ) : Option SpotState :=
  (modules[fi]?.bind fun m => m.spots[si]?).map Spot.state

/-- Car::CarType. -/
inductive CarType
  | COMBUSTION
  | ELECTRIC
deriving DecidableEq, Repr

/-- Car::Priority — the spot-selection policy of the vehicle. -/
inductive Priority
  | PRIORITY_PRICE
  | PRIORITY_DISTANCE
deriving DecidableEq, Repr

/-- Car::CarState — the behavioral states read and written by the
orchestrator's handlers. -/
inductive CarState
  | DRIVING
  | ALIGNING
  | PARKED
  | EXITING
deriving DecidableEq, Repr

/-- The vehicle fields that the orchestrator's handlers read and write
(spec §3).  The current Car implementation is not among the sources
(src/src/entities/Car.cpp is an earlier revision whose queue holds raw
points), so the dwell timer and the arrival flag — maintained by the car
between the handler invocations — appear as the oracle fields
`readyToLeave` (Car::isReadyToLeave) and `arrived` (Car::hasArrived). -/
structure Car where
  position : Vec2
  velocity : Vec2
  type : CarType
  batteryLevel : ℚ
  priority : Priority
  enteredFromLeft : Bool
  state : CarState
  path : List Waypoint
  parkedFacIdx : Option ℕ
  parkedSpot : Option Spot
  parkedSpotIndex : ℤ
  readyToLeave : Bool
  arrived : Bool
deriving DecidableEq, Repr

/-- The named tunable constants of Config.hpp (not among the sources);
spec §6 lists them as configuration inputs. -/
structure Config where
  ART_PIXELS_PER_METER : ℚ
  LANE_OFFSET_DOWN : ℚ
  LANE_OFFSET_UP : ℚ
  BATTERY_LOW_THRESHOLD : ℚ
  BATTERY_HIGH_THRESHOLD : ℚ
  BATTERY_EXIT_THRESHOLD : ℚ
  BATTERY_FORCE_EXIT_THRESHOLD : ℚ
  CHARGING_RATE : ℚ
deriving DecidableEq, Repr

/-- PathPlanner.cpp, P2M: art pixels to meters. -/
def P2M (cfg : Config) (artPixels : ℚ) : ℚ := artPixels / cfg.ART_PIXELS_PER_METER

/-- The two travel lanes (Modules.hpp). -/
inductive Lane
  | UP
  | DOWN
deriving DecidableEq, Repr

namespace PathPlanner

/-- PathPlanner.cpp line 17: cars moving right (positive x velocity) use the
DOWN lane, cars moving left use the UP lane. -/
def laneFor (vx : ℚ) : Lane := if 0 < vx then .DOWN else .UP

/-- PathPlanner.cpp lines 22-23: an "up" (top-side) facility is entered from
the right-hand offset, a bottom facility from the left-hand offset. -/
def sideFor (isUpFac : Bool) : Bool := isUpFac

/-- PathPlanner::CalculateRoadEntry (PathPlanner.cpp lines 46-76). -/
def CalculateRoadEntry (cfg : Config) (road : Module) (lane : Lane)
    (useRightSide : Bool) : Waypoint :=
  let roadPos := road.worldPosition
  let xCenter := P2M cfg 142
  let yOffset := if lane = Lane.DOWN then P2M cfg cfg.LANE_OFFSET_DOWN
                 else P2M cfg cfg.LANE_OFFSET_UP
  let xOffset := if useRightSide then P2M cfg 18 else -P2M cfg 18
  { position := roadPos.add ⟨xCenter + xOffset, yOffset⟩
    tolerance := 5 / 2, id := -1, entryAngle := 0, stopAtEnd := false
    speedLimitFactor := 1 }

/-- PathPlanner::CalculateFacilityEntry (PathPlanner.cpp lines 78-103). -/
def CalculateFacilityEntry (cfg : Config) (facility : Module)
    (useRightSide : Bool) : Waypoint :=
  let basePos := match facility.localWaypoints with
    | [] => (⟨facility.width / 2, facility.height / 2⟩ : Vec2)
    | w :: _ => w.position
  let offset := if useRightSide then P2M cfg 18 else -P2M cfg 18
  { position := facility.worldPosition.add (basePos.add ⟨offset, 0⟩)
    tolerance := 3 / 2, id := -1, entryAngle := 0, stopAtEnd := false
    speedLimitFactor := 1 }

/-- PathPlanner::CalculateAlignmentPoint (PathPlanner.cpp lines 105-116):
a point set back from the spot by 8 units along the reverse of the spot's
orientation. -/
def CalculateAlignmentPoint (cosQ sinQ : ℚ → ℚ) (piQ : ℚ) (facility : Module)
    (spot : Spot) : Waypoint :=
  let spotGlobal := facility.worldPosition.add spot.localPosition
  let backAngle := spot.orientation + piQ
  let dist : ℚ := 8
  let offset : Vec2 := ⟨cosQ backAngle * dist, sinQ backAngle * dist⟩
  { position := spotGlobal.add offset
    tolerance := 1, id := -1, entryAngle := 0, stopAtEnd := false
    speedLimitFactor := 1 }

/-- PathPlanner::CalculateSpotPoint (PathPlanner.cpp lines 118-122): the spot's
exact world position, tight 0.2 tolerance, the spot's orientation as entry
angle, stopAtEnd set. -/
def CalculateSpotPoint (facility : Module) (spot : Spot) : Waypoint :=
  { position := facility.worldPosition.add spot.localPosition
    tolerance := 1 / 5, id := spot.id, entryAngle := spot.orientation
    stopAtEnd := true, speedLimitFactor := 1 }

/-- PathPlanner::GeneratePath (PathPlanner.cpp lines 11-44). -/
def GeneratePath (cfg : Config) (cosQ sinQ : ℚ → ℚ) (piQ : ℚ)
    (modules : List Module) (car : Car) (targetFac : Module)
    (targetSpot : Spot) : List Waypoint :=
  let lane := laneFor car.velocity.x
  let useRightSide := sideFor targetFac.isUp
  let first := match targetFac.getParent modules with
    | some road => CalculateRoadEntry cfg road lane useRightSide
    | none => CalculateFacilityEntry cfg targetFac useRightSide
  [first,
   CalculateFacilityEntry cfg targetFac useRightSide,
   CalculateAlignmentPoint cosQ sinQ piQ targetFac targetSpot,
   CalculateSpotPoint targetFac targetSpot]

/-- Modelled from the spec: PathPlanner::GenerateExitPath is called by the tick
handler but its definition is not among the provided sources.  Spec §4.2: the
mirror operation — back out to the alignment point, re-enter the road at the
lane appropriate to the chosen exit direction, and terminate at a point beyond
the map's leftmost or rightmost road edge with stopAtEnd set. -/
def GenerateExitPath (cfg : Config) (cosQ sinQ : ℚ → ℚ) (piQ : ℚ)
    (modules : List Module) (fac : Module) (spot : Spot) (exitRight : Bool)
    (finalX : ℚ) : List Waypoint :=
  let lane := if exitRight then Lane.DOWN else Lane.UP
  let align := CalculateAlignmentPoint cosQ sinQ piQ fac spot
  let roadWp := match fac.getParent modules with
    | some road => CalculateRoadEntry cfg road lane (sideFor fac.isUp)
    | none => CalculateFacilityEntry cfg fac (sideFor fac.isUp)
  [align, roadWp,
   { position := ⟨finalX, roadWp.position.y⟩
     tolerance := 1, id := -1, entryAngle := 0, stopAtEnd := true
     speedLimitFactor := 1 }]

end PathPlanner

namespace TrafficSystem

/-- Leftmost road edge over the NormalRoad modules, defaulting to 0 when the
map has no roads (TrafficSystem.cpp lines 725-741, through-traffic copy at
lines 662-674). -/
def roadMinX (modules : List Module) : ℚ :=
  match (modules.filter fun m => decide (m.kind = .normalRoad)).map
      (fun m => m.worldPosition.x) with
  | [] => 0
  | x :: xs => xs.foldl min x

/-- Rightmost road edge over the NormalRoad modules, defaulting to 100 when
the map has no roads. -/
def roadMaxX (modules : List Module) : ℚ :=
  match (modules.filter fun m => decide (m.kind = .normalRoad)).map
      (fun m => m.worldPosition.x + m.width) with
  | [] => 100
  | x :: xs => xs.foldl max x

/-- TrafficSystem.cpp lines 516-534: whether the freshly spawned vehicle seeks
a charging facility.  `chargeSample` is the oracle value of
GetRandomValue(0,100)/100. -/
def decideSeekCharging (cfg : Config) (car : Car) (chargeSample : ℚ) : Bool :=
  if car.type = .ELECTRIC then
    if car.batteryLevel < cfg.BATTERY_LOW_THRESHOLD then true
    else if cfg.BATTERY_HIGH_THRESHOLD < car.batteryLevel then false
    else
      let t := (car.batteryLevel - cfg.BATTERY_LOW_THRESHOLD) /
        (cfg.BATTERY_HIGH_THRESHOLD - cfg.BATTERY_LOW_THRESHOLD)
      if chargeSample < t then false else true
  else false

/-- TrafficSystem.cpp lines 536-555: filter the module list to the facility
class matching the vehicle, keeping each facility's registry index. -/
def eligibleFacilities (modules : List Module) (car : Car)
    (seekCharging : Bool) : List (ℕ × Module) :=
  modules.enum.filter fun p =>
    if car.type = .COMBUSTION then p.2.kind.isParking
    else if seekCharging then p.2.kind.isCharging
    else p.2.kind.isParking

/-- TrafficSystem.cpp lines 557-568: when the filtered list is empty and the
vehicle sought charging, broaden the search once to the parking facilities. -/
def facilitiesWithFallback (modules : List Module) (car : Car)
    (seekCharging : Bool) : List (ℕ × Module) :=
  let facs := eligibleFacilities modules car seekCharging
  if facs.isEmpty && seekCharging then
    modules.enum.filter fun p => p.2.kind.isParking
  else facs

/-- The running best of the facility/spot selection loops
(targetFac, bestSpotIndex, bestMetric of TrafficSystem.cpp lines 581-583;
`none` models the float-max initial metric). -/
structure SelState where
  target : Option (ℕ × Module)
  bestSpotIndex : ℤ
  bestMetric : Option ℚ
deriving DecidableEq, Repr

/-- The initial selection state. -/
def SelState.init : SelState := ⟨none, -1, none⟩

/-- TrafficSystem.cpp lines 590-610 (DISTANCE priority): keep the facility
with the smallest spawn-point distance among those with a free spot; the
distance comparison is modelled by squared distance.  `spotR i` is the oracle
value of the GetRandomValue call made inside getRandomSpotIndex for
facility `i`. -/
def selectDistance (carPos : Vec2) (spotR : ℕ → ℕ) :
    List (ℕ × Module) → SelState → SelState
  | [], st => st
  | (i, f) :: rest, st =>
    if f.getSpotCounts.free = 0 then selectDistance carPos spotR rest st
    else
      let dist := distSq carPos f.worldPosition
      let better := match st.bestMetric with
        | none => true
        | some m => decide (dist < m)
      if better then
        let idx := f.getRandomSpotIndex (spotR i)
        if idx ≠ -1 then
          selectDistance carPos spotR rest ⟨some (i, f), idx, some dist⟩
        else selectDistance carPos spotR rest st
      else selectDistance carPos spotR rest st

/-- TrafficSystem.cpp lines 611-640 (PRICE priority): sample one free spot per
facility and keep the facility whose sampled spot has the lowest price. -/
def selectPrice (spotR : ℕ → ℕ) :
    List (ℕ × Module) → SelState → SelState
  | [], st => st
  | (i, f) :: rest, st =>
    let idx := f.getRandomSpotIndex (spotR i)
    if idx = -1 then selectPrice spotR rest st
    else
      let s := f.getSpot idx
      let better := match st.bestMetric with
        | none => true
        | some m => decide (s.price < m)
      if better then selectPrice spotR rest ⟨some (i, f), idx, some s.price⟩
      else selectPrice spotR rest st

/-- The oracle randomness consumed by one CarSpawnedEvent handler run. -/
structure SpawnRand where
  chargeSample : ℚ
  spotR : ℕ → ℕ
  facChoice : ℕ
  fallbackSpotR : ℕ
  retrySpotR : ℕ

/-- TrafficSystem.cpp lines 657-691: the through-traffic fallback — a single
stop waypoint beyond the map's road bounds in the direction of travel, state
set to EXITING, no reservation. -/
def throughTraffic (modules : List Module) (car : Car) : List Module × Car :=
  let movingRight := decide (0 < car.velocity.x)
  let finalX := if movingRight then roadMaxX modules + 2 else roadMinX modules - 2
  let wp : Waypoint :=
    { position := ⟨finalX, car.position.y⟩
      tolerance := 1, id := -1, entryAngle := 0, stopAtEnd := true
      speedLimitFactor := 1 }
  (modules, { car with path := [wp], state := .EXITING })

/-- TrafficSystem.cpp lines 694-711: reserve the chosen spot, generate the
entry path, and store the parking context on the vehicle. -/
def reserveAndAssign (cfg : Config) (cosQ sinQ : ℚ → ℚ) (piQ : ℚ)
    (modules : List Module) (car : Car) (fi : ℕ) (fac : Module)
    (spotIndex : ℤ) : List Module × Car :=
  let fac' := fac.setSpotState spotIndex .RESERVED
  let modules' := modules.set fi fac'
  let spot := fac'.getSpot spotIndex
  let path := PathPlanner.GeneratePath cfg cosQ sinQ piQ modules' car fac' spot
  (modules',
   { car with
       path := path
       parkedFacIdx := some fi
       parkedSpot := some spot
       parkedSpotIndex := spotIndex })

/-- The CarSpawnedEvent handler (TrafficSystem.cpp lines 507-712): facility
class choice, priority-based facility/spot selection with the random
fallback, then reservation + path assignment or the through-traffic exit. -/
def carSpawnedHandler (cfg : Config) (cosQ sinQ : ℚ → ℚ) (piQ : ℚ)
    (modules : List Module) (car : Car) (rand : SpawnRand) :
    List Module × Car :=
  let seekCharging := decideSeekCharging cfg car rand.chargeSample
  let facs := facilitiesWithFallback modules car seekCharging
  if facs.isEmpty then (modules, car)
  else
    let sel :=
      if car.priority = .PRIORITY_DISTANCE then
        selectDistance car.position rand.spotR facs SelState.init
      else selectPrice rand.spotR facs SelState.init
    let chosen : Option (ℕ × Module) × ℤ :=
      if sel.target.isNone || decide (sel.bestSpotIndex = -1) then
        let t := facs.getD (rand.facChoice % facs.length)
          (0, { kind := .normalRoad, worldPosition := ⟨0, 0⟩, width := 0
                height := 0, isTop := false, localWaypoints := [], spots := []
                parentIdx := none })
        (some t, t.2.getRandomSpotIndex rand.fallbackSpotR)
      else (sel.target, sel.bestSpotIndex)
    match chosen with
    | (none, _) => throughTraffic modules car
    | (some (fi, fac), idx0) =>
      let spotIndex := if idx0 = -1 then fac.getRandomSpotIndex rand.retrySpotR
                       else idx0
      if spotIndex = -1 then throughTraffic modules car
      else reserveAndAssign cfg cosQ sinQ piQ modules car fi fac spotIndex

/-- The oracle randomness consumed by one vehicle's tick evaluation. -/
structure TickRand where
  probSample : ℚ
  exitCoin : Bool

/-- TrafficSystem.cpp lines 747-763: once the owning vehicle is ALIGNING or
PARKED, promote its spot from RESERVED to OCCUPIED; the write only fires when
the spot is still RESERVED. -/
def promoteStep (modules : List Module) (car : Car) : List Module :=
  if car.state = .ALIGNING ∨ car.state = .PARKED then
    match car.parkedFacIdx with
    | some fi =>
      match modules[fi]? with
      | some fac =>
        if car.parkedSpotIndex ≠ -1 ∧
            (fac.getSpot car.parkedSpotIndex).state = .RESERVED then
          modules.set fi (fac.setSpotState car.parkedSpotIndex .OCCUPIED)
        else modules
      | none => modules
    | none => modules
  else modules

/-- TrafficSystem.cpp lines 793 and 302-308: the per-tick exit probability of
a charging electric vehicle in the band between the exit and force-exit
thresholds. -/
def exitProbability (cfg : Config) (dt bat : ℚ) : ℚ :=
  (1 / 2) * ((bat - cfg.BATTERY_EXIT_THRESHOLD) /
    (cfg.BATTERY_FORCE_EXIT_THRESHOLD - cfg.BATTERY_EXIT_THRESHOLD)) * dt

/-- TrafficSystem.cpp lines 765-819: the dwell/charge decision for one
vehicle.  A PARKED electric vehicle at a charging facility accrues battery and
decides on battery alone; every other PARKED vehicle decides on its dwell
timer (Car::isReadyToLeave).  Returns the (possibly charged) vehicle and the
shouldExit flag. -/
def dwellDecision (cfg : Config) (dt : ℚ) (modules : List Module) (car : Car)
    (rand : TickRand) : Car × Bool :=
  if car.state = .PARKED then
    let parkedFac : Option Module := car.parkedFacIdx.bind fun fi => modules[fi]?
    let isChargingSpot := (parkedFac.map fun f => f.kind.isCharging).getD false
    if isChargingSpot && decide (car.type = .ELECTRIC) then
      let car' := { car with
        batteryLevel := car.batteryLevel + cfg.CHARGING_RATE * dt }
      let bat := car'.batteryLevel
      if cfg.BATTERY_FORCE_EXIT_THRESHOLD < bat then (car', true)
      else if cfg.BATTERY_EXIT_THRESHOLD < bat then
        (car', decide (rand.probSample < exitProbability cfg dt bat))
      else (car', false)
    else (car, car.readyToLeave)
  else (car, false)

/-- TrafficSystem.cpp lines 822-879: on a decision to exit, release the spot
to FREE, pick the exit direction (DISTANCE-priority vehicles leave from the
side they entered, others by coin flip), generate the exit path against the
already-updated registry, and switch the vehicle to EXITING. -/
def exitRelease (cfg : Config) (cosQ sinQ : ℚ → ℚ) (piQ : ℚ) (minX maxX : ℚ)
    (modules : List Module) (car1 : Car) (shouldExit : Bool) (rand : TickRand) :
    List Module × Car :=
  if shouldExit then
    match car1.parkedFacIdx with
    | none => (modules, { car1 with state := .DRIVING })
    | some fi =>
      match modules[fi]? with
      | none => (modules, { car1 with state := .DRIVING })
      | some fac =>
        let idx := car1.parkedSpotIndex
        let fac' := if idx ≠ -1 then fac.setSpotState idx .FREE else fac
        let modules' := if idx ≠ -1 then modules.set fi fac' else modules
        let exitRight := if car1.priority = .PRIORITY_DISTANCE then
            !car1.enteredFromLeft
          else rand.exitCoin
        let finalX := if exitRight then maxX + 2 else minX - 2
        let path := PathPlanner.GenerateExitPath cfg cosQ sinQ piQ modules' fac'
          (car1.parkedSpot.getD defaultSpot) exitRight finalX
        (modules', { car1 with path := path, state := .EXITING })
  else (modules, car1)

/-- TrafficSystem.cpp lines 765-879: the dwell/charge logic followed by the
exit block. -/
def dwellExitStep (cfg : Config) (cosQ sinQ : ℚ → ℚ) (piQ : ℚ) (dt : ℚ)
    (minX maxX : ℚ) (modules : List Module) (car : Car) (rand : TickRand) :
    List Module × Car :=
  let s := dwellDecision cfg dt modules car rand
  exitRelease cfg cosQ sinQ piQ minX maxX modules s.1 s.2 rand

/-- One vehicle's evaluation inside the GameUpdateEvent handler: the
RESERVED→OCCUPIED promotion followed by the dwell/charge/exit logic. -/
def tickCarStep (cfg : Config) (cosQ sinQ : ℚ → ℚ) (piQ : ℚ) (dt : ℚ)
    (minX maxX : ℚ) (modules : List Module) (car : Car) (rand : TickRand) :
    List Module × Car :=
  let modules1 := promoteStep modules car
  dwellExitStep cfg cosQ sinQ piQ dt minX maxX modules1 car rand

/-- One iteration of the tick handler's vehicle loop: run the vehicle's
tick step against the accumulated registry and collect the updated vehicle. -/
def tickAccStep (cfg : Config) (cosQ sinQ : ℚ → ℚ) (piQ : ℚ) (dt : ℚ)
    (minX maxX : ℚ) (rand : ℕ → TickRand) (acc : List Module × List Car)
    (p : ℕ × Car) : List Module × List Car :=
  let r := tickCarStep cfg cosQ sinQ piQ dt minX maxX acc.1 p.2 (rand p.1)
  (r.1, r.2 :: acc.2)

/-- The GameUpdateEvent handler (TrafficSystem.cpp lines 715-903): evaluate
every vehicle in order against the shared registry, then remove the vehicles
that have completed their exit path. -/
def tickHandler (cfg : Config) (cosQ sinQ : ℚ → ℚ) (piQ : ℚ) (dt : ℚ)
    (modules : List Module) (cars : List Car) (rand : ℕ → TickRand) :
    List Module × List Car :=
  let minX := roadMinX modules
  let maxX := roadMaxX modules
  let result := cars.enum.foldl
    (tickAccStep cfg cosQ sinQ piQ dt minX maxX rand) (modules, [])
  (result.1,
   result.2.reverse.filter fun c => !(decide (c.state = .EXITING) && c.arrived))

end TrafficSystem

/-- Modelled from the spec: the waypoint-following step of the current
Car::updateWithNeighbors is not among the provided sources (the Car.cpp under
src/src/entities is an earlier revision whose queue holds raw Vector2 points
with a fixed 50-unit radius, predating the Waypoint struct that
TrafficSystem.cpp and PathPlanner.cpp use).  Spec §4.3: while waypoints
remain, the vehicle seeks the front waypoint; once within the waypoint's
tolerance radius it pops it, and if that waypoint is the queue's tail and has
stopAtEnd set, the vehicle is considered arrived rather than continuing.
The proximity test compares squared distance against squared tolerance. -/
def Car.waypointTick (c : Car) : Car :=
  match c.path with
  | [] => c
  | w :: rest =>
    if distSq c.position w.position < w.tolerance * w.tolerance then
      if rest.isEmpty && w.stopAtEnd then
        { c with path := rest, arrived := true }
      else { c with path := rest }
    else c

/-! ### Basic lemmas about the spot list primitives -/

/-- Overwriting one spot's state preserves the length of the spot list. -/
theorem length_setSpotStateList (l : List Spot) (n : ℕ) (st : SpotState) :
    (setSpotStateList l n st).length = l.length := by
  induction l generalizing n with
  | nil => rfl
  | cons s rest ih =>
    cases n with
    | zero => simp [setSpotStateList]
    | succ k => simp [setSpotStateList, ih]

/-- Reading the overwritten position. -/
theorem getElem?_setSpotStateList_eq (l : List Spot) (n : ℕ) (st : SpotState) :
    (setSpotStateList l n st)[n]? = l[n]?.map fun s => { s with state := st } := by
  induction l generalizing n with
  | nil => simp [setSpotStateList]
  | cons s rest ih =>
    cases n with
    | zero => simp [setSpotStateList]
    | succ k => simpa [setSpotStateList] using ih k

/-- Reading any other position. -/
theorem getElem?_setSpotStateList_ne (l : List Spot) (n m : ℕ) (st : SpotState)
    (h : m ≠ n) : (setSpotStateList l n st)[m]? = l[m]? := by
  induction l generalizing n m with
  | nil => simp [setSpotStateList]
  | cons s rest ih =>
    cases n with
    | zero =>
      cases m with
      | zero => exact absurd rfl h
      | succ j => simp [setSpotStateList]
    | succ k =>
      cases m with
      | zero => simp [setSpotStateList]
      | succ j =>
        have : j ≠ k := fun hj => h (by simp [hj])
        simpa [setSpotStateList] using ih k j this

/-- Membership characterisation of the FREE-index list. -/
theorem mem_freeIndicesFrom (l : List Spot) (n i : ℕ) :
    i ∈ freeIndicesFrom n l ↔
      ∃ j, i = n + j ∧ ∃ s, l[j]? = some s ∧ s.state = .FREE := by
  induction l generalizing n i with
  | nil => simp [freeIndicesFrom]
  | cons s rest ih =>
    by_cases hs : s.state = .FREE
    · simp only [freeIndicesFrom, if_pos hs, List.mem_cons, ih]
      constructor
      · rintro (rfl | ⟨j, rfl, t, ht, hft⟩)
        · exact ⟨0, by omega, s, by simp, hs⟩
        · exact ⟨j + 1, by omega, t, by simpa using ht, hft⟩
      · rintro ⟨j, rfl, t, ht, hft⟩
        cases j with
        | zero =>
          left
          omega
        | succ k =>
          right
          exact ⟨k, by omega, t, by simpa using ht, hft⟩
    · simp only [freeIndicesFrom, if_neg hs, ih]
      constructor
      · rintro ⟨j, rfl, t, ht, hft⟩
        exact ⟨j + 1, by omega, t, by simpa using ht, hft⟩
      · rintro ⟨j, rfl, t, ht, hft⟩
        cases j with
        | zero =>
          simp only [List.getElem?_cons_zero, Option.some_inj] at ht
          exact absurd (ht ▸ hft) hs
        | succ k => exact ⟨k, by omega, t, by simpa using ht, hft⟩

/-- The FREE-index list is empty exactly when no spot is FREE. -/
theorem freeIndicesFrom_eq_nil_iff (l : List Spot) (n : ℕ) :
    freeIndicesFrom n l = [] ↔ ∀ s ∈ l, s.state ≠ .FREE := by
  rw [List.eq_nil_iff_forall_not_mem]
  constructor
  · intro h s hs hfree
    obtain ⟨j, hj⟩ := List.mem_iff_get.mp hs
    have hj' : l[(j : ℕ)]? = some s := by
      rw [List.getElem?_eq_getElem j.isLt]
      simpa [List.get_eq_getElem] using hj
    exact h (n + j) ((mem_freeIndicesFrom l n _).mpr ⟨j, rfl, s, hj', hfree⟩)
  · intro h i hi
    obtain ⟨j, _, s, hs, hfree⟩ := (mem_freeIndicesFrom l n i).mp hi
    exact h s (List.getElem?_mem hs) hfree

/-- Every FREE index is at least the starting offset. -/
theorem le_of_mem_freeIndicesFrom (l : List Spot) (n i : ℕ)
    (h : i ∈ freeIndicesFrom n l) : n ≤ i := by
  obtain ⟨j, rfl, -⟩ := (mem_freeIndicesFrom l n i).mp h
  omega

/-- The FREE-index list has no duplicates. -/
theorem nodup_freeIndicesFrom (l : List Spot) (n : ℕ) :
    (freeIndicesFrom n l).Nodup := by
  induction l generalizing n with
  | nil => simp [freeIndicesFrom]
  | cons s rest ih =>
    by_cases hs : s.state = .FREE
    · simp only [freeIndicesFrom, if_pos hs, List.nodup_cons]
      refine ⟨fun hmem => ?_, ih (n + 1)⟩
      have := le_of_mem_freeIndicesFrom rest (n + 1) n hmem
      omega
    · simpa only [freeIndicesFrom, if_neg hs] using ih (n + 1)

/-- The FREE-index list counts exactly the FREE spots. -/
theorem length_freeIndicesFrom (l : List Spot) (n : ℕ) :
    (freeIndicesFrom n l).length =
      (l.filter fun s => decide (s.state = .FREE)).length := by
  induction l generalizing n with
  | nil => rfl
  | cons s rest ih =>
    by_cases hs : s.state = .FREE
    · simp [freeIndicesFrom, hs, List.filter_cons, ih]
    · simp [freeIndicesFrom, hs, List.filter_cons, ih]

/-- getSpotCounts.free counts the FREE-index list. -/
theorem getSpotCounts_free (m : Module) :
    m.getSpotCounts.free = (freeIndices m.spots).length := by
  simp [Module.getSpotCounts, freeIndices, length_freeIndicesFrom]

/-- getRandomSpotIndex returns the sentinel exactly when no spot is FREE. -/
theorem getRandomSpotIndex_eq_neg_one_iff (m : Module) (r : ℕ) :
    m.getRandomSpotIndex r = -1 ↔ ∀ s ∈ m.spots, s.state ≠ .FREE := by
  unfold Module.getRandomSpotIndex
  by_cases h : (freeIndices m.spots).isEmpty
  · simp only [h, if_true]
    rw [List.isEmpty_iff] at h
    simpa [freeIndices] using (freeIndicesFrom_eq_nil_iff m.spots 0).mp h
  · simp only [h, if_false]
    rw [List.isEmpty_iff] at h
    constructor
    · intro hc
      have h0 : (0 : ℤ) ≤ -1 := hc ▸ Int.natCast_nonneg _
      norm_num at h0
    · intro hall
      exact absurd ((freeIndicesFrom_eq_nil_iff m.spots 0).mpr hall) h

/-- When some spot is FREE, getRandomSpotIndex returns a member of the
FREE-index list. -/
theorem getRandomSpotIndex_mem (m : Module) (r : ℕ)
    (h : freeIndices m.spots ≠ []) :
    ∃ n : ℕ, m.getRandomSpotIndex r = (n : ℤ) ∧ n ∈ freeIndices m.spots := by
  unfold Module.getRandomSpotIndex
  have hne : ¬(freeIndices m.spots).isEmpty := by
    simpa [List.isEmpty_iff] using h
  simp only [hne, if_false]
  have hlen : 0 < (freeIndices m.spots).length := List.length_pos.mpr h
  have hlt : r % (freeIndices m.spots).length < (freeIndices m.spots).length :=
    Nat.mod_lt _ hlen
  refine ⟨(freeIndices m.spots).getD (r % (freeIndices m.spots).length) 0,
    rfl, ?_⟩
  rw [List.getD_eq_getElem _ _ hlt]
  exact List.getElem_mem hlt

/-- A FREE index points at a FREE spot. -/
theorem free_of_mem_freeIndices (spots : List Spot) (n : ℕ)
    (h : n ∈ freeIndices spots) :
    ∃ s, spots[n]? = some s ∧ s.state = .FREE := by
  obtain ⟨j, hj, s, hs, hf⟩ := (mem_freeIndicesFrom spots 0 n).mp h
  exact ⟨s, by simpa [hj] using hs, hf⟩

/-- Every FREE spot can be returned by getRandomSpotIndex for a suitable
random draw. -/
theorem getRandomSpotIndex_surjective (m : Module) (n : ℕ)
    (hn : n ∈ freeIndices m.spots) :
    ∃ r, m.getRandomSpotIndex r = (n : ℤ) := by
  obtain ⟨⟨r, hr⟩, hget⟩ := List.mem_iff_get.mp hn
  refine ⟨r, ?_⟩
  unfold Module.getRandomSpotIndex
  have hne : ¬(freeIndices m.spots).isEmpty := by
    rw [List.isEmpty_iff]
    intro hnil
    rw [hnil] at hr
    exact absurd hr (by simp)
  simp only [hne, if_false]
  rw [Nat.mod_eq_of_lt hr, List.getD_eq_getElem _ _ hr]
  simp [← hget, List.get_eq_getElem]

/-- A non-sentinel getRandomSpotIndex result is a FREE index. -/
theorem getRandomSpotIndex_ne_neg_one (m : Module) (r : ℕ)
    (h : m.getRandomSpotIndex r ≠ -1) :
    ∃ n : ℕ, m.getRandomSpotIndex r = (n : ℤ) ∧ n ∈ freeIndices m.spots := by
  by_cases hfree : freeIndices m.spots = []
  · exfalso
    apply h
    unfold Module.getRandomSpotIndex
    simp [hfree]
  · exact getRandomSpotIndex_mem m r hfree

/-- Reading getSpot at a position known to hold a spot. -/
theorem getSpot_of_getElem? (m : Module) (idx : ℤ) (s : Spot)
    (h : m.spots[idx.toNat]? = some s) : m.getSpot idx = s := by
  unfold Module.getSpot
  rw [List.getD_eq_getElem?_getD, h]
  rfl

/-- A getSpot read whose state is not the default FREE is in range. -/
theorem getElem?_of_getSpot_ne_free (m : Module) (idx : ℤ)
    (h : (m.getSpot idx).state ≠ .FREE) :
    m.spots[idx.toNat]? = some (m.getSpot idx) := by
  unfold Module.getSpot at *
  rw [List.getD_eq_getElem?_getD] at *
  cases hx : m.spots[idx.toNat]? with
  | none =>
    rw [hx] at h
    exact absurd rfl h
  | some s => rfl

/-! ### How each registry write changes the observable spot states -/

/-- Effect of writing one spot state of one module on every observable spot:
only the addressed spot changes, and it changes to the written state. -/
theorem spotAt_set_setSpotState (modules : List Module) (fi : ℕ) (fac : Module)
    (idx : ℤ) (st : SpotState) (h : modules[fi]? = some fac) (fj sj : ℕ) :
    spotAt (modules.set fi (fac.setSpotState idx st)) fj sj =
      if fj = fi ∧ ¬idx < 0 ∧ sj = idx.toNat then
        (spotAt modules fj sj).map fun _ => st
      else spotAt modules fj sj := by
  have hlt : fi < modules.length := by
    by_contra hge
    rw [List.getElem?_eq_none (by omega)] at h
    exact Option.noConfusion h
  by_cases hfj : fj = fi
  · subst hfj
    rw [spotAt, List.getElem?_set_eq hlt]
    by_cases hneg : idx < 0
    · have : fac.setSpotState idx st = fac := by
        unfold Module.setSpotState
        simp [hneg]
      simp only [this, hneg, spotAt, h]
      simp
    · have hspots : (fac.setSpotState idx st).spots =
          setSpotStateList fac.spots idx.toNat st := by
        unfold Module.setSpotState
        simp [hneg]
      by_cases hsj : sj = idx.toNat
      · subst hsj
        simp only [hneg, not_false_iff, and_true, true_and, if_pos rfl]
        rw [spotAt, h]
        simp only [Option.some_bind, hspots, getElem?_setSpotStateList_eq]
        cases fac.spots[idx.toNat]? <;> rfl
      · simp only [hneg, not_false_iff, hsj, and_false, if_false]
        rw [spotAt, h]
        simp only [Option.some_bind, hspots,
          getElem?_setSpotStateList_ne fac.spots idx.toNat sj st hsj]
  · simp only [hfj, false_and, if_false]
    rw [spotAt, List.getElem?_set_ne (by omega), spotAt]

/-- The reservation precondition: the handler reserves only an index freshly
returned by getRandomSpotIndex on the module at the stored registry index. -/
def ReservePre (modules : List Module) (fi : ℕ) (fac : Module) (idx : ℤ) :
    Prop :=
  modules[fi]? = some fac ∧ idx ≠ -1 ∧ ∃ r, fac.getRandomSpotIndex r = idx

namespace TrafficSystem

/-- Invariant carried by the selection loops: a non-null running target is a
registry entry whose running best spot index was freshly sampled on it. -/
def SelInv (modules : List Module) (st : SelState) : Prop :=
  st.target = none ∨
    ∃ fi fac, st.target = some (fi, fac) ∧ modules[fi]? = some fac ∧
      st.bestSpotIndex ≠ -1 ∧ ∃ r, fac.getRandomSpotIndex r = st.bestSpotIndex

/-- The facility filters only return registry entries. -/
theorem facilitiesWithFallback_lookup (modules : List Module) (car : Car)
    (b : Bool) (p : ℕ × Module) (hp : p ∈ facilitiesWithFallback modules car b) :
    modules[p.1]? = some p.2 := by
  obtain ⟨i, m⟩ := p
  have key : ∀ q : ℕ × Module → Bool, (i, m) ∈ modules.enum.filter q →
      modules[i]? = some m := fun q hq =>
    List.mk_mem_enum_iff_getElem?.mp (List.mem_filter.mp hq).1
  simp only [facilitiesWithFallback] at hp
  split at hp
  · exact key _ hp
  · exact key _ (by simpa only [eligibleFacilities] using hp)

/-- The DISTANCE selection loop preserves the selection invariant. -/
theorem selectDistance_inv (modules : List Module) (carPos : Vec2)
    (spotR : ℕ → ℕ) (l : List (ℕ × Module)) :
    ∀ st, (∀ p ∈ l, modules[p.1]? = some p.2) → SelInv modules st →
      SelInv modules (selectDistance carPos spotR l st) := by
  induction l with
  | nil => intro st _ h; exact h
  | cons p rest ih =>
    intro st hl h
    obtain ⟨i, f⟩ := p
    have hl' : ∀ q ∈ rest, modules[q.1]? = some q.2 := fun q hq =>
      hl q (List.mem_cons_of_mem _ hq)
    unfold selectDistance
    by_cases h0 : f.getSpotCounts.free = 0
    · simp only [h0, if_true]
      exact ih st hl' h
    · simp only [h0, if_false]
      by_cases hb : (match st.bestMetric with
          | none => true
          | some m => decide (distSq carPos f.worldPosition < m)) = true
      · rw [if_pos hb]
        by_cases hidx : f.getRandomSpotIndex (spotR i) ≠ -1
        · rw [if_pos hidx]
          refine ih _ hl' (Or.inr ⟨i, f, rfl, hl (i, f) (List.mem_cons_self _ _), hidx,
            spotR i, rfl⟩)
        · rw [if_neg hidx]
          exact ih st hl' h
      · rw [if_neg hb]
        exact ih st hl' h

/-- The PRICE selection loop preserves the selection invariant. -/
theorem selectPrice_inv (modules : List Module) (spotR : ℕ → ℕ)
    (l : List (ℕ × Module)) :
    ∀ st, (∀ p ∈ l, modules[p.1]? = some p.2) → SelInv modules st →
      SelInv modules (selectPrice spotR l st) := by
  induction l with
  | nil => intro st _ h; exact h
  | cons p rest ih =>
    intro st hl h
    obtain ⟨i, f⟩ := p
    have hl' : ∀ q ∈ rest, modules[q.1]? = some q.2 := fun q hq =>
      hl q (List.mem_cons_of_mem _ hq)
    unfold selectPrice
    by_cases hidx : f.getRandomSpotIndex (spotR i) = -1
    · simp only [hidx, if_true]
      exact ih st hl' h
    · simp only [hidx, if_false]
      by_cases hb : (match st.bestMetric with
          | none => true
          | some m => decide ((f.getSpot (f.getRandomSpotIndex (spotR i))).price < m)) = true
      · rw [if_pos hb]
        refine ih _ hl' (Or.inr ⟨i, f, rfl, hl (i, f) (List.mem_cons_self _ _), hidx,
          spotR i, rfl⟩)
      · rw [if_neg hb]
        exact ih st hl' h

/-- Shape of one CarSpawnedEvent handler run: either the registry is left
unchanged (no facilities, or through traffic), or the run is exactly a
reservation of a freshly sampled FREE spot of a registry facility. -/
theorem carSpawnedHandler_cases (cfg : Config) (cosQ sinQ : ℚ → ℚ) (piQ : ℚ)
    (modules : List Module) (car : Car) (rand : SpawnRand) :
    (carSpawnedHandler cfg cosQ sinQ piQ modules car rand).1 = modules ∨
      ∃ fi fac idx, ReservePre modules fi fac idx ∧
        carSpawnedHandler cfg cosQ sinQ piQ modules car rand =
          reserveAndAssign cfg cosQ sinQ piQ modules car fi fac idx := by
  simp only [carSpawnedHandler]
  set facs := facilitiesWithFallback modules car
    (decideSeekCharging cfg car rand.chargeSample) with hfacs
  by_cases hempty : facs.isEmpty
  · rw [if_pos hempty]
    exact Or.inl rfl
  · rw [if_neg hempty]
    set sel := if car.priority = .PRIORITY_DISTANCE then
        selectDistance car.position rand.spotR facs SelState.init
      else selectPrice rand.spotR facs SelState.init with hsel
    have hinv : SelInv modules sel := by
      rw [hsel]
      have hlook := facilitiesWithFallback_lookup modules car
        (decideSeekCharging cfg car rand.chargeSample)
      have hinit : SelInv modules SelState.init := Or.inl rfl
      split
      · refine selectDistance_inv modules car.position rand.spotR facs
          SelState.init ?_ hinit
        rw [hfacs]
        exact hlook
      · refine selectPrice_inv modules rand.spotR facs SelState.init ?_ hinit
        rw [hfacs]
        exact hlook
    by_cases hcond : (sel.target.isNone || decide (sel.bestSpotIndex = -1)) = true
    · rw [if_pos hcond]
      have hlen : 0 < facs.length := by
        rw [List.isEmpty_iff] at hempty
        exact List.length_pos.mpr hempty
      have hmem : facs.getD (rand.facChoice % facs.length)
          (0, { kind := .normalRoad, worldPosition := ⟨0, 0⟩, width := 0
                height := 0, isTop := false, localWaypoints := [], spots := []
                parentIdx := none }) ∈ facs := by
        rw [List.getD_eq_getElem _ _ (Nat.mod_lt _ hlen)]
        exact List.getElem_mem _
      set t := facs.getD (rand.facChoice % facs.length)
        (0, { kind := .normalRoad, worldPosition := ⟨0, 0⟩, width := 0
              height := 0, isTop := false, localWaypoints := [], spots := []
              parentIdx := none }) with ht
      have hlookt : modules[t.1]? = some t.2 :=
        facilitiesWithFallback_lookup modules car _ t (hfacs ▸ hmem)
      obtain ⟨fi, fac⟩ := t
      simp only []
      by_cases hretry : fac.getRandomSpotIndex rand.fallbackSpotR = -1
      · rw [if_pos hretry]
        by_cases hretry2 : fac.getRandomSpotIndex rand.retrySpotR = -1
        · rw [if_pos hretry2]
          exact Or.inl rfl
        · rw [if_neg hretry2]
          exact Or.inr ⟨fi, fac, _, ⟨hlookt, hretry2, rand.retrySpotR, rfl⟩, rfl⟩
      · rw [if_neg hretry, if_neg hretry]
        exact Or.inr ⟨fi, fac, _, ⟨hlookt, hretry, rand.fallbackSpotR, rfl⟩, rfl⟩
    · rw [if_neg hcond]
      rw [Bool.or_eq_true, not_or] at hcond
      obtain ⟨hnone, hneg⟩ := hcond
      have hne : sel.bestSpotIndex ≠ -1 := by
        intro hx
        exact hneg (by simp [hx])
      obtain htgt | ⟨fi, fac, htgt, hlook, hidx, r, hr⟩ := hinv
      · exact absurd (by simp [htgt]) hnone
      · rw [htgt]
        simp only []
        rw [if_neg hne, if_neg hne]
        exact Or.inr ⟨fi, fac, sel.bestSpotIndex, ⟨hlook, hne, r, hr⟩, rfl⟩

/-- Reading a spot state through a known registry lookup. -/
theorem spotAt_of_lookup (modules : List Module) (fi sj : ℕ) (fac : Module)
    (h : modules[fi]? = some fac) :
    spotAt modules fi sj = fac.spots[sj]?.map Spot.state := by
  rw [spotAt, h]
  rfl

/-- Shape of one promotion step: either the registry is unchanged, or the
owning (ALIGNING/PARKED) vehicle's RESERVED context spot is overwritten with
OCCUPIED. -/
theorem promoteStep_shape (modules : List Module) (car : Car) :
    promoteStep modules car = modules ∨
      ∃ fi fac, car.parkedFacIdx = some fi ∧ modules[fi]? = some fac ∧
        (car.state = .ALIGNING ∨ car.state = .PARKED) ∧
        car.parkedSpotIndex ≠ -1 ∧
        (fac.getSpot car.parkedSpotIndex).state = .RESERVED ∧
        promoteStep modules car =
          modules.set fi (fac.setSpotState car.parkedSpotIndex .OCCUPIED) := by
  unfold promoteStep
  by_cases hstate : car.state = .ALIGNING ∨ car.state = .PARKED
  · rw [if_pos hstate]
    cases hfi : car.parkedFacIdx with
    | none => exact Or.inl rfl
    | some fi =>
      dsimp only
      cases hlook : modules[fi]? with
      | none => exact Or.inl rfl
      | some fac =>
        dsimp only
        by_cases hcond : car.parkedSpotIndex ≠ -1 ∧
            (fac.getSpot car.parkedSpotIndex).state = .RESERVED
        · rw [if_pos hcond]
          exact Or.inr ⟨fi, fac, rfl, hlook, hstate, hcond.1, hcond.2, rfl⟩
        · rw [if_neg hcond]
          exact Or.inl rfl
  · rw [if_neg hstate]
    exact Or.inl rfl

/-- Per-spot effect of the promotion step, with ownership: a change is exactly
the owned RESERVED spot becoming OCCUPIED. -/
theorem spotAt_promoteStep (modules : List Module) (car : Car) (fj sj : ℕ) :
    spotAt (promoteStep modules car) fj sj = spotAt modules fj sj ∨
      (car.parkedFacIdx = some fj ∧ (sj : ℤ) = car.parkedSpotIndex ∧
        (car.state = .ALIGNING ∨ car.state = .PARKED) ∧
        spotAt modules fj sj = some .RESERVED ∧
        spotAt (promoteStep modules car) fj sj = some .OCCUPIED) := by
  rcases promoteStep_shape modules car with h | ⟨fi, fac, hfi, hlook, hstate,
    hne, hres, heq⟩
  · rw [h]
    exact Or.inl rfl
  · rw [heq, spotAt_set_setSpotState modules fi fac _ _ hlook fj sj]
    by_cases hc : fj = fi ∧ ¬car.parkedSpotIndex < 0 ∧
        sj = car.parkedSpotIndex.toNat
    · rw [if_pos hc]
      obtain ⟨hfj, hpos, hsj⟩ := hc
      have hread : fac.spots[car.parkedSpotIndex.toNat]? =
          some (fac.getSpot car.parkedSpotIndex) :=
        getElem?_of_getSpot_ne_free _ _ (by rw [hres]; intro hx; cases hx)
      have hold : spotAt modules fj sj = some .RESERVED := by
        rw [hfj, hsj, spotAt_of_lookup modules fi _ fac hlook, hread]
        simp [hres]
      refine Or.inr ⟨hfj ▸ hfi, ?_, hstate, hold, ?_⟩
      · rw [hsj]
        exact Int.toNat_of_nonneg (by omega)
      · rw [hold]
        rfl
    · rw [if_neg hc]
      exact Or.inl rfl

/-- Applying the promotion twice equals applying it once. -/
theorem promoteStep_idem (modules : List Module) (car : Car) :
    promoteStep (promoteStep modules car) car = promoteStep modules car := by
  rcases promoteStep_shape modules car with h | ⟨fi, fac, hfi, hlook, hstate,
    hne, hres, heq⟩
  · rw [h, h]
  · have hlt : fi < modules.length := by
      by_contra hge
      rw [List.getElem?_eq_none (by omega)] at hlook
      exact Option.noConfusion hlook
    rw [heq]
    unfold promoteStep
    rw [if_pos hstate, hfi]
    simp only [List.getElem?_set_eq (a := fac.setSpotState car.parkedSpotIndex
      .OCCUPIED) (by simpa using hlt : fi < modules.length)]
    by_cases hneg : car.parkedSpotIndex < 0
    · have hfac' : fac.setSpotState car.parkedSpotIndex .OCCUPIED = fac := by
        unfold Module.setSpotState
        rw [if_pos hneg]
      rw [hfac']
      rw [if_pos ⟨hne, hres⟩, List.set_set]
      rw [hfac']
    · have hread : fac.spots[car.parkedSpotIndex.toNat]? =
          some (fac.getSpot car.parkedSpotIndex) :=
        getElem?_of_getSpot_ne_free _ _ (by rw [hres]; intro hx; cases hx)
      have hspots : (fac.setSpotState car.parkedSpotIndex .OCCUPIED).spots =
          setSpotStateList fac.spots car.parkedSpotIndex.toNat .OCCUPIED := by
        unfold Module.setSpotState
        rw [if_neg hneg]
      have hread2 : (fac.setSpotState car.parkedSpotIndex
          .OCCUPIED).spots[car.parkedSpotIndex.toNat]? =
          some { fac.getSpot car.parkedSpotIndex with state := .OCCUPIED } := by
        rw [hspots, getElem?_setSpotStateList_eq, hread]
        rfl
      have hgets : ((fac.setSpotState car.parkedSpotIndex .OCCUPIED).getSpot
          car.parkedSpotIndex).state = .OCCUPIED := by
        rw [getSpot_of_getElem? _ _ _ hread2]
      rw [if_neg (by
        intro hcontra
        rw [hgets] at hcontra
        exact SpotState.noConfusion hcontra.2)]

/-- Shape of one exit-release step: either the registry is unchanged, or the
exiting vehicle's context spot is overwritten with FREE and the vehicle is
switched to EXITING. -/
theorem exitRelease_shape (cfg : Config) (cosQ sinQ : ℚ → ℚ) (piQ : ℚ)
    (minX maxX : ℚ) (modules : List Module) (car1 : Car) (shouldExit : Bool)
    (rand : TickRand) :
    (exitRelease cfg cosQ sinQ piQ minX maxX modules car1 shouldExit rand).1 =
        modules ∨
      ∃ fi fac, car1.parkedFacIdx = some fi ∧ modules[fi]? = some fac ∧
        shouldExit = true ∧ car1.parkedSpotIndex ≠ -1 ∧
        (exitRelease cfg cosQ sinQ piQ minX maxX modules car1 shouldExit
            rand).1 =
          modules.set fi (fac.setSpotState car1.parkedSpotIndex .FREE) ∧
        (exitRelease cfg cosQ sinQ piQ minX maxX modules car1 shouldExit
            rand).2.state = .EXITING := by
  unfold exitRelease
  cases shouldExit with
  | false => exact Or.inl rfl
  | true =>
    rw [if_pos rfl]
    cases hfi : car1.parkedFacIdx with
    | none => exact Or.inl rfl
    | some fi =>
      dsimp only
      cases hlook : modules[fi]? with
      | none => exact Or.inl rfl
      | some fac =>
        simp only
        by_cases hne : car1.parkedSpotIndex ≠ -1
        · simp only [if_pos hne]
          exact Or.inr ⟨fi, fac, by trivial, by trivial, by trivial, hne,
            by trivial, by trivial⟩
        · simp only [if_neg hne]
          exact Or.inl (by trivial)

/-- The dwell/charge decision only ever updates the vehicle's battery. -/
theorem dwellDecision_fst (cfg : Config) (dt : ℚ) (modules : List Module)
    (car : Car) (rand : TickRand) :
    ∃ b, (dwellDecision cfg dt modules car rand).1 =
      { car with batteryLevel := b } := by
  unfold dwellDecision
  split
  · simp only
    split
    · split
      · exact ⟨_, rfl⟩
      · split
        · exact ⟨_, rfl⟩
        · exact ⟨_, rfl⟩
    · exact ⟨car.batteryLevel, rfl⟩
  · exact ⟨car.batteryLevel, rfl⟩

/-- A positive exit decision is only taken for a PARKED vehicle. -/
theorem dwellDecision_parked_of_snd (cfg : Config) (dt : ℚ)
    (modules : List Module) (car : Car) (rand : TickRand)
    (h : (dwellDecision cfg dt modules car rand).2 = true) :
    car.state = .PARKED := by
  by_cases h1 : car.state = .PARKED
  · exact h1
  · exfalso
    unfold dwellDecision at h
    rw [if_neg h1] at h
    exact Bool.noConfusion h

/-- The per-spot changes one vehicle's tick evaluation can make: nothing, the
promotion RESERVED→OCCUPIED, the release OCCUPIED→FREE, or both in sequence
(observed as RESERVED→FREE, passing through OCCUPIED). -/
def TickSpotRel (a b : Option SpotState) : Prop :=
  b = a ∨ (a = some .RESERVED ∧ b = some .OCCUPIED) ∨
    (a = some .OCCUPIED ∧ b = some .FREE) ∨
    (a = some .RESERVED ∧ b = some .FREE)

/-- TickSpotRel is transitive. -/
theorem tickSpotRel_trans {a b c : Option SpotState} (h1 : TickSpotRel a b)
    (h2 : TickSpotRel b c) : TickSpotRel a c := by
  unfold TickSpotRel at *
  rcases h1 with rfl | ⟨rfl, rfl⟩ | ⟨rfl, rfl⟩ | ⟨rfl, rfl⟩ <;>
    rcases h2 with rfl | ⟨h2a, rfl⟩ | ⟨h2a, rfl⟩ | ⟨h2a, rfl⟩ <;> simp_all

/-- Per-spot effect of the exit-release step, as a TickSpotRel link. -/
theorem spotAt_exitRelease_rel (cfg : Config) (cosQ sinQ : ℚ → ℚ) (piQ : ℚ)
    (minX maxX : ℚ) (modules : List Module) (car1 : Car) (shouldExit : Bool)
    (rand : TickRand) (fj sj : ℕ) :
    TickSpotRel (spotAt modules fj sj)
      (spotAt (exitRelease cfg cosQ sinQ piQ minX maxX modules car1 shouldExit
        rand).1 fj sj) := by
  rcases exitRelease_shape cfg cosQ sinQ piQ minX maxX modules car1 shouldExit
    rand with h | ⟨fi, fac, hfi, hlook, hb, hne, heq, hex⟩
  · rw [h]
    exact Or.inl rfl
  · rw [heq, spotAt_set_setSpotState modules fi fac _ _ hlook fj sj]
    by_cases hc : fj = fi ∧ ¬car1.parkedSpotIndex < 0 ∧
        sj = car1.parkedSpotIndex.toNat
    · rw [if_pos hc]
      cases hold : spotAt modules fj sj with
      | none => exact Or.inl rfl
      | some v =>
        cases v with
        | FREE => exact Or.inl rfl
        | RESERVED => exact Or.inr (Or.inr (Or.inr ⟨rfl, rfl⟩))
        | OCCUPIED => exact Or.inr (Or.inr (Or.inl ⟨rfl, rfl⟩))
    · rw [if_neg hc]
      exact Or.inl rfl

/-- Per-spot effect of the promotion step, as a TickSpotRel link. -/
theorem spotAt_promoteStep_rel (modules : List Module) (car : Car)
    (fj sj : ℕ) :
    TickSpotRel (spotAt modules fj sj)
      (spotAt (promoteStep modules car) fj sj) := by
  rcases spotAt_promoteStep modules car fj sj with h | ⟨_, _, _, hold, hnew⟩
  · exact Or.inl h
  · exact Or.inr (Or.inl ⟨hold, hnew⟩)

/-- Per-spot effect of one vehicle's tick evaluation. -/
theorem spotAt_tickCarStep_rel (cfg : Config) (cosQ sinQ : ℚ → ℚ) (piQ : ℚ)
    (dt minX maxX : ℚ) (modules : List Module) (car : Car) (rand : TickRand)
    (fj sj : ℕ) :
    TickSpotRel (spotAt modules fj sj)
      (spotAt (tickCarStep cfg cosQ sinQ piQ dt minX maxX modules car
        rand).1 fj sj) :=
  tickSpotRel_trans (spotAt_promoteStep_rel modules car fj sj)
    (spotAt_exitRelease_rel cfg cosQ sinQ piQ minX maxX
      (promoteStep modules car) _ _ rand fj sj)

/-- Per-spot effect of the tick handler's whole vehicle loop. -/
theorem spotAt_tickFold_rel (cfg : Config) (cosQ sinQ : ℚ → ℚ) (piQ : ℚ)
    (dt minX maxX : ℚ) (rand : ℕ → TickRand) (ps : List (ℕ × Car)) :
    ∀ (acc : List Module × List Car) (fj sj : ℕ),
      TickSpotRel (spotAt acc.1 fj sj)
        (spotAt (ps.foldl (tickAccStep cfg cosQ sinQ piQ dt minX maxX rand)
          acc).1 fj sj) := by
  induction ps with
  | nil => intro acc fj sj; exact Or.inl rfl
  | cons p rest ih =>
    intro acc fj sj
    rw [List.foldl_cons]
    exact tickSpotRel_trans
      (spotAt_tickCarStep_rel cfg cosQ sinQ piQ dt minX maxX acc.1 p.2
        (rand p.1) fj sj)
      (ih _ fj sj)

/-- Per-spot effect of one GameUpdateEvent handler run. -/
theorem spotAt_tickHandler_rel (cfg : Config) (cosQ sinQ : ℚ → ℚ) (piQ : ℚ)
    (dt : ℚ) (modules : List Module) (cars : List Car) (rand : ℕ → TickRand)
    (fj sj : ℕ) :
    TickSpotRel (spotAt modules fj sj)
      (spotAt (tickHandler cfg cosQ sinQ piQ dt modules cars rand).1 fj sj) :=
  spotAt_tickFold_rel cfg cosQ sinQ piQ dt (roadMinX modules)
    (roadMaxX modules) rand cars.enum (modules, []) fj sj

/-- Per-spot effect of one CarSpawnedEvent handler run: unchanged, or one
FREE spot becomes RESERVED. -/
theorem spotAt_carSpawnedHandler_rel (cfg : Config) (cosQ sinQ : ℚ → ℚ)
    (piQ : ℚ) (modules : List Module) (car : Car) (rand : SpawnRand)
    (fj sj : ℕ) :
    spotAt (carSpawnedHandler cfg cosQ sinQ piQ modules car rand).1 fj sj =
        spotAt modules fj sj ∨
      (spotAt modules fj sj = some .FREE ∧
        spotAt (carSpawnedHandler cfg cosQ sinQ piQ modules car rand).1 fj sj =
          some .RESERVED) := by
  rcases carSpawnedHandler_cases cfg cosQ sinQ piQ modules car rand with
    h | ⟨fi, fac, idx, ⟨hlook, hne, r, hr⟩, heq⟩
  · rw [h]
    exact Or.inl rfl
  · have h1 : (carSpawnedHandler cfg cosQ sinQ piQ modules car rand).1 =
        modules.set fi (fac.setSpotState idx .RESERVED) := by
      rw [heq]
      rfl
    rw [h1, spotAt_set_setSpotState modules fi fac _ _ hlook fj sj]
    obtain ⟨n, hn, hmem⟩ := getRandomSpotIndex_ne_neg_one fac r (hr ▸ hne)
    obtain ⟨s, hs, hsfree⟩ := free_of_mem_freeIndices fac.spots n hmem
    have hidx : idx = (n : ℤ) := by rw [← hr, hn]
    by_cases hc : fj = fi ∧ ¬idx < 0 ∧ sj = idx.toNat
    · rw [if_pos hc]
      obtain ⟨hfj, hpos, hsj⟩ := hc
      have hsj' : sj = n := by
        rw [hsj, hidx]
        exact Int.toNat_natCast n
      have hold : spotAt modules fj sj = some .FREE := by
        rw [hfj, hsj', spotAt_of_lookup modules fi _ fac hlook, hs]
        simp [hsfree]
      exact Or.inr ⟨hold, by rw [hold]; rfl⟩
    · rw [if_neg hc]
      exact Or.inl rfl

/-- After the promotion step runs for a vehicle, the vehicle's context spot is
no longer RESERVED (it was either promoted, or was not RESERVED to begin
with). -/
theorem promoteStep_kills_reserved (modules : List Module) (car : Car)
    (fi : ℕ) (hstate : car.state = .ALIGNING ∨ car.state = .PARKED)
    (hfi : car.parkedFacIdx = some fi) (hne : car.parkedSpotIndex ≠ -1)
    (hpos : ¬car.parkedSpotIndex < 0) :
    spotAt (promoteStep modules car) fi car.parkedSpotIndex.toNat ≠
      some .RESERVED := by
  unfold promoteStep
  rw [if_pos hstate, hfi]
  dsimp only
  cases hlook : modules[fi]? with
  | none =>
    simp [spotAt, hlook]
  | some fac =>
    dsimp only
    by_cases hcond : car.parkedSpotIndex ≠ -1 ∧
        (fac.getSpot car.parkedSpotIndex).state = .RESERVED
    · rw [if_pos hcond]
      rw [spotAt_set_setSpotState modules fi fac _ _ hlook fi
        car.parkedSpotIndex.toNat]
      rw [if_pos ⟨rfl, hpos, rfl⟩]
      cases spotAt modules fi car.parkedSpotIndex.toNat <;> simp
    · rw [if_neg hcond]
      have hgs : (fac.getSpot car.parkedSpotIndex).state ≠ .RESERVED :=
        fun hx => hcond ⟨hne, hx⟩
      rw [spotAt_of_lookup modules fi _ fac hlook]
      cases hsp : fac.spots[car.parkedSpotIndex.toNat]? with
      | none => simp
      | some s =>
        have hgeq : fac.getSpot car.parkedSpotIndex = s :=
          getSpot_of_getElem? fac _ s hsp
        intro hx
        apply hgs
        rw [hgeq]
        simpa using hx

/-- A spot changed to FREE by one vehicle's tick evaluation was freed by its
PARKED owner deciding to exit, and the spot was OCCUPIED right after the
promotion phase (the moment of the freeing write). -/
theorem tickCarStep_free_owner (cfg : Config) (cosQ sinQ : ℚ → ℚ) (piQ : ℚ)
    (dt minX maxX : ℚ) (modules : List Module) (car : Car) (rand : TickRand)
    (fj sj : ℕ)
    (hchange : spotAt (tickCarStep cfg cosQ sinQ piQ dt minX maxX modules car
      rand).1 fj sj ≠ spotAt modules fj sj)
    (hfree : spotAt (tickCarStep cfg cosQ sinQ piQ dt minX maxX modules car
      rand).1 fj sj = some .FREE) :
    car.state = .PARKED ∧ car.parkedFacIdx = some fj ∧
      (sj : ℤ) = car.parkedSpotIndex ∧
      (tickCarStep cfg cosQ sinQ piQ dt minX maxX modules car
        rand).2.state = .EXITING ∧
      spotAt (promoteStep modules car) fj sj = some .OCCUPIED := by
  have hstep : tickCarStep cfg cosQ sinQ piQ dt minX maxX modules car rand =
      exitRelease cfg cosQ sinQ piQ minX maxX (promoteStep modules car)
        (dwellDecision cfg dt (promoteStep modules car) car rand).1
        (dwellDecision cfg dt (promoteStep modules car) car rand).2 rand := rfl
  rw [hstep] at hchange hfree ⊢
  obtain ⟨β, hcar1⟩ := dwellDecision_fst cfg dt (promoteStep modules car) car
    rand
  rcases exitRelease_shape cfg cosQ sinQ piQ minX maxX (promoteStep modules
      car) (dwellDecision cfg dt (promoteStep modules car) car rand).1
      (dwellDecision cfg dt (promoteStep modules car) car rand).2 rand with
    h | ⟨fi, fac1, hfi1, hlook1, hbtrue, hne1, heq1, hex1⟩
  · rw [h] at hchange hfree
    rcases spotAt_promoteStep modules car fj sj with hsame | ⟨_, _, _, _, hocc⟩
    · exact absurd hsame hchange
    · rw [hocc] at hfree
      exact absurd hfree (by simp)
  · have hparked : car.state = .PARKED :=
      dwellDecision_parked_of_snd cfg dt (promoteStep modules car) car rand
        hbtrue
    have hfi' : car.parkedFacIdx = some fi := by
      rw [hcar1] at hfi1
      exact hfi1
    have hidx1 : (dwellDecision cfg dt (promoteStep modules car) car
        rand).1.parkedSpotIndex = car.parkedSpotIndex := by
      rw [hcar1]
    have hne' : car.parkedSpotIndex ≠ -1 := by
      rw [← hidx1]
      exact hne1
    rw [heq1] at hchange hfree
    rw [spotAt_set_setSpotState (promoteStep modules car) fi fac1 _ _ hlook1
      fj sj] at hchange hfree
    by_cases hcnd : fj = fi ∧
        ¬(dwellDecision cfg dt (promoteStep modules car) car
          rand).1.parkedSpotIndex < 0 ∧
        sj = (dwellDecision cfg dt (promoteStep modules car) car
          rand).1.parkedSpotIndex.toNat
    · obtain ⟨hfj, hpos1, hsj⟩ := hcnd
      rw [if_pos ⟨hfj, hpos1, hsj⟩] at hchange hfree
      have hpos : ¬car.parkedSpotIndex < 0 := hidx1 ▸ hpos1
      refine ⟨hparked, hfj ▸ hfi', ?_, hex1, ?_⟩
      · rw [hsj, hidx1]
        exact Int.toNat_of_nonneg (by omega)
      · cases hmid : spotAt (promoteStep modules car) fj sj with
        | none =>
          rw [hmid] at hfree
          exact absurd hfree (by simp)
        | some v =>
          cases v with
          | OCCUPIED => rfl
          | FREE =>
            exfalso
            rcases spotAt_promoteStep modules car fj sj with
              hsame | ⟨_, _, _, _, hocc⟩
            · apply hchange
              rw [hmid, ← hsame, hmid]
              rfl
            · rw [hocc] at hmid
              exact absurd hmid (by simp)
          | RESERVED =>
            exfalso
            apply promoteStep_kills_reserved modules car fi (Or.inr hparked)
              hfi' hne' hpos
            rw [← hfj, ← hidx1, ← hsj]
            exact hmid
    · rw [if_neg hcnd] at hchange hfree
      rcases spotAt_promoteStep modules car fj sj with
        hsame | ⟨_, _, _, _, hocc⟩
      · exact absurd hsame hchange
      · rw [hocc] at hfree
        exact absurd hfree (by simp)

/-- A facility with a positive FREE count never yields the sentinel. -/
theorem getRandomSpotIndex_ne_of_free_pos (m : Module) (r : ℕ)
    (h : 0 < m.getSpotCounts.free) : m.getRandomSpotIndex r ≠ -1 := by
  rw [getSpotCounts_free] at h
  have hne : freeIndices m.spots ≠ [] := by
    intro hx
    rw [hx] at h
    exact absurd h (by simp)
  obtain ⟨n, hn, _⟩ := getRandomSpotIndex_mem m r hne
  rw [hn]
  omega

/-- A facility with no FREE spot always yields the sentinel. -/
theorem getRandomSpotIndex_eq_of_free_zero (m : Module) (r : ℕ)
    (h : m.getSpotCounts.free = 0) : m.getRandomSpotIndex r = -1 := by
  rw [getSpotCounts_free] at h
  have hnil : freeIndices m.spots = [] := List.length_eq_zero.mp h
  unfold Module.getRandomSpotIndex
  simp [hnil]

/-- Invariant of the DISTANCE selection loop over the facilities already
examined: either nothing has a free spot yet, or the running target is a
free-spot facility at minimal squared distance among the examined free-spot
facilities. -/
def DInv (carPos : Vec2) (seen : List (ℕ × Module)) (st : SelState) : Prop :=
  (st.target = none ∧ st.bestMetric = none ∧ st.bestSpotIndex = -1 ∧
    ∀ p ∈ seen, p.2.getSpotCounts.free = 0) ∨
  (∃ fi fac, st.target = some (fi, fac) ∧ (fi, fac) ∈ seen ∧
    0 < fac.getSpotCounts.free ∧
    st.bestMetric = some (distSq carPos fac.worldPosition) ∧
    ∀ p ∈ seen, 0 < p.2.getSpotCounts.free →
      distSq carPos fac.worldPosition ≤ distSq carPos p.2.worldPosition)

/-- The DISTANCE selection loop maintains its invariant. -/
theorem selectDistance_dinv (carPos : Vec2) (spotR : ℕ → ℕ) :
    ∀ (l seen : List (ℕ × Module)) (st : SelState), DInv carPos seen st →
      DInv carPos (seen ++ l) (selectDistance carPos spotR l st) := by
  intro l
  induction l with
  | nil =>
    intro seen st h
    simpa using h
  | cons p rest ih =>
    intro seen st h
    obtain ⟨i, f⟩ := p
    have hseen : seen ++ (i, f) :: rest = (seen ++ [(i, f)]) ++ rest := by
      simp
    rw [hseen]
    unfold selectDistance
    by_cases h0 : f.getSpotCounts.free = 0
    · rw [if_pos h0]
      apply ih
      rcases h with ⟨h1, h2, h3, h4⟩ | ⟨fi, fac, h1, h2, h3, h4, h5⟩
      · refine Or.inl ⟨h1, h2, h3, fun q hq => ?_⟩
        rcases List.mem_append.mp hq with hq | hq
        · exact h4 q hq
        · simp only [List.mem_singleton] at hq
          rw [hq]
          exact h0
      · refine Or.inr ⟨fi, fac, h1, List.mem_append.mpr (Or.inl h2), h3, h4,
          fun q hq hfree => ?_⟩
        rcases List.mem_append.mp hq with hq | hq
        · exact h5 q hq hfree
        · simp only [List.mem_singleton] at hq
          rw [hq] at hfree
          exact absurd hfree (by simp [h0])
    · rw [if_neg h0]
      have hfpos : 0 < f.getSpotCounts.free := Nat.pos_of_ne_zero h0
      have hidx := getRandomSpotIndex_ne_of_free_pos f (spotR i) hfpos
      by_cases hb : (match st.bestMetric with
          | none => true
          | some m => decide (distSq carPos f.worldPosition < m)) = true
      · rw [if_pos hb, if_pos hidx]
        apply ih
        refine Or.inr ⟨i, f, rfl,
          List.mem_append.mpr (Or.inr (by simp)), hfpos, rfl,
          fun q hq hfree => ?_⟩
        rcases List.mem_append.mp hq with hq | hq
        · rcases h with ⟨h1, h2, h3, h4⟩ | ⟨fi, fac, h1, h2, h3, h4, h5⟩
          · exact absurd hfree (by simp [h4 q hq])
          · rw [h4] at hb
            simp only [decide_eq_true_eq] at hb
            exact le_trans hb.le (h5 q hq hfree)
        · simp only [List.mem_singleton] at hq
          rw [hq]
      · rw [if_neg hb]
        apply ih
        rcases h with ⟨h1, h2, h3, h4⟩ | ⟨fi, fac, h1, h2, h3, h4, h5⟩
        · exact absurd (by rw [h2]) hb
        · refine Or.inr ⟨fi, fac, h1, List.mem_append.mpr (Or.inl h2), h3, h4,
            fun q hq hfree => ?_⟩
          rcases List.mem_append.mp hq with hq | hq
          · exact h5 q hq hfree
          · simp only [List.mem_singleton] at hq
            rw [h4] at hb
            simp only [decide_eq_true_eq, not_lt] at hb
            rw [hq]
            exact hb

/-- Invariant of the PRICE selection loop over the facilities already
examined. -/
def PInv (spotR : ℕ → ℕ) (seen : List (ℕ × Module)) (st : SelState) : Prop :=
  (st.target = none ∧ st.bestMetric = none ∧ st.bestSpotIndex = -1 ∧
    ∀ p ∈ seen, p.2.getRandomSpotIndex (spotR p.1) = -1) ∨
  (∃ fi fac, st.target = some (fi, fac) ∧ (fi, fac) ∈ seen ∧
    st.bestSpotIndex = fac.getRandomSpotIndex (spotR fi) ∧
    fac.getRandomSpotIndex (spotR fi) ≠ -1 ∧
    st.bestMetric =
      some (fac.getSpot (fac.getRandomSpotIndex (spotR fi))).price ∧
    ∀ p ∈ seen, p.2.getRandomSpotIndex (spotR p.1) ≠ -1 →
      (fac.getSpot (fac.getRandomSpotIndex (spotR fi))).price ≤
        (p.2.getSpot (p.2.getRandomSpotIndex (spotR p.1))).price)

/-- The PRICE selection loop maintains its invariant. -/
theorem selectPrice_pinv (spotR : ℕ → ℕ) :
    ∀ (l seen : List (ℕ × Module)) (st : SelState), PInv spotR seen st →
      PInv spotR (seen ++ l) (selectPrice spotR l st) := by
  intro l
  induction l with
  | nil =>
    intro seen st h
    simpa using h
  | cons p rest ih =>
    intro seen st h
    obtain ⟨i, f⟩ := p
    have hseen : seen ++ (i, f) :: rest = (seen ++ [(i, f)]) ++ rest := by
      simp
    rw [hseen]
    unfold selectPrice
    by_cases hidx : f.getRandomSpotIndex (spotR i) = -1
    · rw [if_pos hidx]
      apply ih
      rcases h with ⟨h1, h2, h3, h4⟩ | ⟨fi, fac, h1, h2, h3, h4, h5, h6⟩
      · refine Or.inl ⟨h1, h2, h3, fun q hq => ?_⟩
        rcases List.mem_append.mp hq with hq | hq
        · exact h4 q hq
        · simp only [List.mem_singleton] at hq
          rw [hq]
          exact hidx
      · refine Or.inr ⟨fi, fac, h1, List.mem_append.mpr (Or.inl h2), h3, h4,
          h5, fun q hq hqne => ?_⟩
        rcases List.mem_append.mp hq with hq | hq
        · exact h6 q hq hqne
        · simp only [List.mem_singleton] at hq
          rw [hq] at hqne
          exact absurd hidx hqne
    · rw [if_neg hidx]
      by_cases hb : (match st.bestMetric with
          | none => true
          | some m =>
            decide ((f.getSpot (f.getRandomSpotIndex (spotR i))).price <
              m)) = true
      · rw [if_pos hb]
        apply ih
        refine Or.inr ⟨i, f, rfl,
          List.mem_append.mpr (Or.inr (by simp)), rfl, hidx, rfl,
          fun q hq hqne => ?_⟩
        rcases List.mem_append.mp hq with hq | hq
        · rcases h with ⟨h1, h2, h3, h4⟩ | ⟨fi, fac, h1, h2, h3, h4, h5, h6⟩
          · exact absurd (h4 q hq) hqne
          · rw [h5] at hb
            simp only [decide_eq_true_eq] at hb
            exact le_trans hb.le (h6 q hq hqne)
        · simp only [List.mem_singleton] at hq
          rw [hq]
      · rw [if_neg hb]
        apply ih
        rcases h with ⟨h1, h2, h3, h4⟩ | ⟨fi, fac, h1, h2, h3, h4, h5, h6⟩
        · exact absurd (by rw [h2]) hb
        · refine Or.inr ⟨fi, fac, h1, List.mem_append.mpr (Or.inl h2), h3, h4,
            h5, fun q hq hqne => ?_⟩
          rcases List.mem_append.mp hq with hq | hq
          · exact h6 q hq hqne
          · simp only [List.mem_singleton] at hq
            rw [h5] at hb
            simp only [decide_eq_true_eq, not_lt] at hb
            rw [hq]
            exact hb

/-- The DISTANCE loop leaves its state unchanged when no examined facility
has a free spot. -/
theorem selectDistance_skip_all (carPos : Vec2) (spotR : ℕ → ℕ) :
    ∀ (l : List (ℕ × Module)) (st : SelState),
      (∀ p ∈ l, p.2.getSpotCounts.free = 0) →
      selectDistance carPos spotR l st = st := by
  intro l
  induction l with
  | nil => intro st _; rfl
  | cons p rest ih =>
    intro st hall
    obtain ⟨i, f⟩ := p
    unfold selectDistance
    rw [if_pos (hall (i, f) (List.mem_cons_self _ _))]
    exact ih st fun q hq => hall q (List.mem_cons_of_mem _ hq)

/-- The PRICE loop leaves its state unchanged when every examined facility
samples the sentinel. -/
theorem selectPrice_skip_all (spotR : ℕ → ℕ) :
    ∀ (l : List (ℕ × Module)) (st : SelState),
      (∀ p ∈ l, p.2.getRandomSpotIndex (spotR p.1) = -1) →
      selectPrice spotR l st = st := by
  intro l
  induction l with
  | nil => intro st _; rfl
  | cons p rest ih =>
    intro st hall
    obtain ⟨i, f⟩ := p
    unfold selectPrice
    rw [if_pos (hall (i, f) (List.mem_cons_self _ _))]
    exact ih st fun q hq => hall q (List.mem_cons_of_mem _ hq)

/-- A max fold dominates its seed. -/
theorem seed_le_foldl_max : ∀ (l : List ℚ) (x : ℚ), x ≤ l.foldl max x := by
  intro l
  induction l with
  | nil => intro x; exact le_refl x
  | cons a rest ih =>
    intro x
    exact le_trans (le_max_left x a) (ih (max x a))

/-- A max fold dominates every member. -/
theorem mem_le_foldl_max : ∀ (l : List ℚ) (x y : ℚ), y ∈ l →
    y ≤ l.foldl max x := by
  intro l
  induction l with
  | nil => intro x y h; cases h
  | cons a rest ih =>
    intro x y h
    rcases List.mem_cons.mp h with rfl | h
    · exact le_trans (le_max_right x y) (seed_le_foldl_max rest (max x y))
    · exact ih (max x a) y h

/-- A min fold is below its seed. -/
theorem foldl_min_le_seed : ∀ (l : List ℚ) (x : ℚ), l.foldl min x ≤ x := by
  intro l
  induction l with
  | nil => intro x; exact le_refl x
  | cons a rest ih =>
    intro x
    exact le_trans (ih (min x a)) (min_le_left x a)

/-- A min fold is below every member. -/
theorem foldl_min_le_mem : ∀ (l : List ℚ) (x y : ℚ), y ∈ l →
    l.foldl min x ≤ y := by
  intro l
  induction l with
  | nil => intro x y h; cases h
  | cons a rest ih =>
    intro x y h
    rcases List.mem_cons.mp h with rfl | h
    · exact le_trans (foldl_min_le_seed rest (min x y)) (min_le_right x y)
    · exact ih (min x a) y h

/-- Every normal road's right edge is within the computed map bound. -/
theorem roadMaxX_ge (modules : List Module) (m : Module) (hm : m ∈ modules)
    (hk : m.kind = .normalRoad) :
    m.worldPosition.x + m.width ≤ roadMaxX modules := by
  unfold roadMaxX
  have hmem : m.worldPosition.x + m.width ∈
      (modules.filter fun q => decide (q.kind = .normalRoad)).map
        fun q => q.worldPosition.x + q.width :=
    List.mem_map_of_mem _ (List.mem_filter.mpr ⟨hm, by simp [hk]⟩)
  cases hlist : (modules.filter fun q => decide (q.kind = .normalRoad)).map
      (fun q => q.worldPosition.x + q.width) with
  | nil =>
    rw [hlist] at hmem
    cases hmem
  | cons x xs =>
    rw [hlist] at hmem
    rcases List.mem_cons.mp hmem with heq | hmem'
    · rw [heq]
      exact seed_le_foldl_max xs x
    · exact mem_le_foldl_max xs x _ hmem'

/-- Every normal road's left edge is within the computed map bound. -/
theorem roadMinX_le (modules : List Module) (m : Module) (hm : m ∈ modules)
    (hk : m.kind = .normalRoad) :
    roadMinX modules ≤ m.worldPosition.x := by
  unfold roadMinX
  have hmem : m.worldPosition.x ∈
      (modules.filter fun q => decide (q.kind = .normalRoad)).map
        fun q => q.worldPosition.x :=
    List.mem_map_of_mem _ (List.mem_filter.mpr ⟨hm, by simp [hk]⟩)
  cases hlist : (modules.filter fun q => decide (q.kind = .normalRoad)).map
      (fun q => q.worldPosition.x) with
  | nil =>
    rw [hlist] at hmem
    cases hmem
  | cons x xs =>
    rw [hlist] at hmem
    rcases List.mem_cons.mp hmem with heq | hmem'
    · rw [heq]
      exact foldl_min_le_seed xs x
    · exact foldl_min_le_mem xs x _ hmem'

/-- When the DISTANCE loop elects a target, that target is an examined
facility with a free spot at minimal squared distance among the examined
free-spot facilities. -/
theorem selectDistance_target_spec (carPos : Vec2) (spotR : ℕ → ℕ)
    (facs : List (ℕ × Module)) (fi : ℕ) (fac : Module)
    (h : (selectDistance carPos spotR facs SelState.init).target =
      some (fi, fac)) :
    (fi, fac) ∈ facs ∧ 0 < fac.getSpotCounts.free ∧
    ∀ p ∈ facs, 0 < p.2.getSpotCounts.free →
      distSq carPos fac.worldPosition ≤ distSq carPos p.2.worldPosition := by
  have hinv := selectDistance_dinv carPos spotR facs [] SelState.init
    (Or.inl ⟨rfl, rfl, rfl, by simp⟩)
  rw [List.nil_append] at hinv
  rcases hinv with ⟨h1, _⟩ | ⟨fi', fac', h1, h2, h3, h4, h5⟩
  · rw [h] at h1
    cases h1
  · rw [h] at h1
    simp only [Option.some.injEq, Prod.mk.injEq] at h1
    obtain ⟨rfl, rfl⟩ := h1
    exact ⟨h2, h3, h5⟩

/-- The DISTANCE loop elects a target whenever some facility has a free
spot. -/
theorem selectDistance_target_some (carPos : Vec2) (spotR : ℕ → ℕ)
    (facs : List (ℕ × Module))
    (h : ∃ p ∈ facs, 0 < p.2.getSpotCounts.free) :
    (selectDistance carPos spotR facs SelState.init).target ≠ none := by
  have hinv := selectDistance_dinv carPos spotR facs [] SelState.init
    (Or.inl ⟨rfl, rfl, rfl, by simp⟩)
  rw [List.nil_append] at hinv
  rcases hinv with ⟨_, _, _, h4⟩ | ⟨fi, fac, h1, _⟩
  · obtain ⟨p, hp, hfree⟩ := h
    exact absurd hfree (by simp [h4 p hp])
  · rw [h1]
    exact Option.some_ne_none _

/-- When the PRICE loop elects a target, that target is an examined facility
whose sampled free spot has the lowest price among the examined facilities
that sampled a spot. -/
theorem selectPrice_target_spec (spotR : ℕ → ℕ)
    (facs : List (ℕ × Module)) (fi : ℕ) (fac : Module)
    (h : (selectPrice spotR facs SelState.init).target = some (fi, fac)) :
    (fi, fac) ∈ facs ∧ fac.getRandomSpotIndex (spotR fi) ≠ -1 ∧
    (selectPrice spotR facs SelState.init).bestSpotIndex =
      fac.getRandomSpotIndex (spotR fi) ∧
    ∀ p ∈ facs, p.2.getRandomSpotIndex (spotR p.1) ≠ -1 →
      (fac.getSpot (fac.getRandomSpotIndex (spotR fi))).price ≤
        (p.2.getSpot (p.2.getRandomSpotIndex (spotR p.1))).price := by
  have hinv := selectPrice_pinv spotR facs [] SelState.init
    (Or.inl ⟨rfl, rfl, rfl, by simp⟩)
  rw [List.nil_append] at hinv
  rcases hinv with ⟨h1, _⟩ | ⟨fi', fac', h1, h2, h3, h4, h5, h6⟩
  · rw [h] at h1
    cases h1
  · rw [h] at h1
    simp only [Option.some.injEq, Prod.mk.injEq] at h1
    obtain ⟨rfl, rfl⟩ := h1
    exact ⟨h2, h4, h3, h6⟩

/-- When no eligible facility has a free spot, the spawn handler falls back
to the through-traffic exit path. -/
theorem carSpawnedHandler_through (cfg : Config) (cosQ sinQ : ℚ → ℚ)
    (piQ : ℚ) (modules : List Module) (car : Car) (rand : SpawnRand)
    (hne : ¬(facilitiesWithFallback modules car
      (decideSeekCharging cfg car rand.chargeSample)).isEmpty)
    (hfull : ∀ p ∈ facilitiesWithFallback modules car
        (decideSeekCharging cfg car rand.chargeSample),
      p.2.getSpotCounts.free = 0) :
    carSpawnedHandler cfg cosQ sinQ piQ modules car rand =
      throughTraffic modules car := by
  simp only [carSpawnedHandler]
  set facs := facilitiesWithFallback modules car
    (decideSeekCharging cfg car rand.chargeSample) with hfacs
  rw [if_neg hne]
  have hfull' : ∀ p ∈ facs, p.2.getRandomSpotIndex (rand.spotR p.1) = -1 :=
    fun p hp => getRandomSpotIndex_eq_of_free_zero p.2 _ (hfull p hp)
  have hsel : (if car.priority = .PRIORITY_DISTANCE then
      selectDistance car.position rand.spotR facs SelState.init
    else selectPrice rand.spotR facs SelState.init) = SelState.init := by
    split
    · exact selectDistance_skip_all car.position rand.spotR facs
        SelState.init hfull
    · exact selectPrice_skip_all rand.spotR facs SelState.init hfull'
  rw [hsel]
  have hcond : (SelState.init.target.isNone ||
      decide (SelState.init.bestSpotIndex = -1)) = true := by decide
  rw [if_pos hcond]
  have hlen : 0 < facs.length := by
    rw [List.isEmpty_iff] at hne
    exact List.length_pos.mpr hne
  have hmem : facs.getD (rand.facChoice % facs.length)
      (0, { kind := .normalRoad, worldPosition := ⟨0, 0⟩, width := 0
            height := 0, isTop := false, localWaypoints := [], spots := []
            parentIdx := none }) ∈ facs := by
    rw [List.getD_eq_getElem _ _ (Nat.mod_lt _ hlen)]
    exact List.getElem_mem _
  set t := facs.getD (rand.facChoice % facs.length)
    (0, { kind := .normalRoad, worldPosition := ⟨0, 0⟩, width := 0
          height := 0, isTop := false, localWaypoints := [], spots := []
          parentIdx := none }) with ht
  have hfree : t.2.getSpotCounts.free = 0 := hfull t hmem
  obtain ⟨fi, fac⟩ := t
  simp only []
  have hidx1 : fac.getRandomSpotIndex rand.fallbackSpotR = -1 :=
    getRandomSpotIndex_eq_of_free_zero fac _ hfree
  have hidx2 : fac.getRandomSpotIndex rand.retrySpotR = -1 :=
    getRandomSpotIndex_eq_of_free_zero fac _ hfree
  rw [if_pos hidx1, if_pos hidx2]

/-- The observable per-handler change of one spot: unchanged, one step of the
cycle FREE→RESERVED→OCCUPIED→FREE, or the RESERVED→FREE composite in which
the intervening OCCUPIED is written and freed within the same handler run —
in every case the observed sequence stays a subsequence of the iterated
cycle. -/
def cycleOkTwo (a b : Option SpotState) : Prop :=
  b = a ∨ (a = some .FREE ∧ b = some .RESERVED) ∨
    (a = some .RESERVED ∧ b = some .OCCUPIED) ∨
    (a = some .OCCUPIED ∧ b = some .FREE) ∨
    (a = some .RESERVED ∧ b = some .FREE)

/-- One registry transition performed by an orchestrator handler: a
CarSpawnedEvent handler run or a GameUpdateEvent handler run. -/
def ModulesStep (cfg : Config) (cosQ sinQ : ℚ → ℚ) (piQ : ℚ)
    (ms ms' : List Module) : Prop :=
  (∃ car rand, ms' = (carSpawnedHandler cfg cosQ sinQ piQ ms car rand).1) ∨
    (∃ dt cars rand, ms' = (tickHandler cfg cosQ sinQ piQ dt ms cars rand).1)

/-- Every handler transition moves every spot along the cycle. -/
theorem modulesStep_cycleOkTwo (cfg : Config) (cosQ sinQ : ℚ → ℚ) (piQ : ℚ)
    (ms ms' : List Module) (h : ModulesStep cfg cosQ sinQ piQ ms ms')
    (fj sj : ℕ) : cycleOkTwo (spotAt ms fj sj) (spotAt ms' fj sj) := by
  rcases h with ⟨car, rand, rfl⟩ | ⟨dt, cars, rand, rfl⟩
  · rcases spotAt_carSpawnedHandler_rel cfg cosQ sinQ piQ ms car rand fj sj
      with h | ⟨h1, h2⟩
    · exact Or.inl h
    · exact Or.inr (Or.inl ⟨h1, h2⟩)
  · rcases spotAt_tickHandler_rel cfg cosQ sinQ piQ dt ms cars rand fj sj
      with h | ⟨h1, h2⟩ | ⟨h1, h2⟩ | ⟨h1, h2⟩
    · exact Or.inl h
    · exact Or.inr (Or.inr (Or.inl ⟨h1, h2⟩))
    · exact Or.inr (Or.inr (Or.inr (Or.inl ⟨h1, h2⟩)))
    · exact Or.inr (Or.inr (Or.inr (Or.inr ⟨h1, h2⟩)))

end TrafficSystem

/-! ### Concrete fixtures used by the claim witnesses -/

/-- A concrete configuration (the values the sources' comments document:
7 art pixels per meter, lane offsets 94/61, battery thresholds 30/70/80/95,
charge rate 5). -/
def wCfg : Config := ⟨7, 94, 61, 30, 70, 80, 95, 5⟩

/-- A concrete stand-in for cosf. -/
def wCos : ℚ → ℚ := fun _ => 1

/-- A concrete stand-in for sinf. -/
def wSin : ℚ → ℚ := fun _ => 0

/-- A free spot priced 5. -/
def wSpotA : Spot := ⟨⟨1, 1⟩, 0, 0, .FREE, 5⟩

/-- A free spot priced 2. -/
def wSpotB : Spot := ⟨⟨2, 2⟩, 0, 1, .FREE, 2⟩

/-- A normal road from x = 0 to x = 40. -/
def wRoad : Module := ⟨.normalRoad, ⟨0, 0⟩, 40, 22, false, [], [], none⟩

/-- A top-side small parking at distance 10 from the origin. -/
def wFacA : Module := ⟨.smallParking, ⟨10, 0⟩, 10, 10, true, [], [wSpotA], none⟩

/-- A bottom-side small parking at distance 50 from the origin. -/
def wFacB : Module :=
  ⟨.smallParking, ⟨50, 0⟩, 10, 10, false, [], [wSpotB], none⟩

/-- A registry with one road and the two parkings. -/
def wMods : List Module := [wRoad, wFacA, wFacB]

/-- A combustion, DISTANCE-priority car at the origin moving right. -/
def wCarD : Car :=
  ⟨⟨0, 0⟩, ⟨15, 0⟩, .COMBUSTION, 50, .PRIORITY_DISTANCE, true, .DRIVING, [],
   none, none, -1, false, false⟩

/-- The same car with PRICE priority. -/
def wCarP : Car := { wCarD with priority := .PRIORITY_PRICE }

/-- A fixed random tape for the spawn handler. -/
def wSpawnRand : TrafficSystem.SpawnRand := ⟨0, fun _ => 0, 0, 0, 0⟩

/-- The first parking with its only spot taken. -/
def wFacAFull : Module := { wFacA with spots := [{ wSpotA with state := .OCCUPIED }] }

/-- The second parking with its only spot taken. -/
def wFacBFull : Module := { wFacB with spots := [{ wSpotB with state := .OCCUPIED }] }

/-- A registry whose facilities are all full. -/
def wModsFull : List Module := [wRoad, wFacAFull, wFacBFull]

/-- The car parked on wFacA's spot 0 with its timer expired. -/
def wCarParked : Car :=
  { wCarD with
    state := .PARKED
    parkedFacIdx := some 1
    parkedSpot := some ({ wSpotA with state := .RESERVED })
    parkedSpotIndex := 0
    readyToLeave := true }

/-- The registry with wFacA's spot 0 RESERVED. -/
def wModsRes : List Module :=
  [wRoad, { wFacA with spots := [{ wSpotA with state := .RESERVED }] }, wFacB]

/-- A fixed random draw for the tick handler. -/
def wTickRand : TrafficSystem.TickRand := ⟨1, true⟩

/-! ### The claims -/

/-- Claim C1: every spot-state change performed by the orchestrator's handlers
follows the cycle FREE→RESERVED→OCCUPIED→FREE and no other order: the
spawned-vehicle handler sets a spot to RESERVED only when it was FREE (it was
just returned by getRandomSpotIndex); the tick handler's promotion sets a spot
to OCCUPIED only when it is currently RESERVED and its owning vehicle is
ALIGNING or PARKED, and applying the promotion twice equals applying it once;
a spot is set to FREE only at the moment its parked owner decides to exit
(the spot being OCCUPIED at the moment of that write); hence along every
trace of handler transitions each spot's observed state sequence is a
subsequence of the iterated cycle. -/
theorem claim_C1 :
    (∀ (cfg : Config) (cosQ sinQ : ℚ → ℚ) (piQ : ℚ) (modules : List Module)
      (car : Car) (rand : TrafficSystem.SpawnRand) (fj sj : ℕ),
      spotAt (TrafficSystem.carSpawnedHandler cfg cosQ sinQ piQ modules car
          rand).1 fj sj = spotAt modules fj sj ∨
        (spotAt modules fj sj = some .FREE ∧
          spotAt (TrafficSystem.carSpawnedHandler cfg cosQ sinQ piQ modules
            car rand).1 fj sj = some .RESERVED)) ∧
    (∀ (modules : List Module) (car : Car) (fj sj : ℕ),
      spotAt (TrafficSystem.promoteStep modules car) fj sj =
          spotAt modules fj sj ∨
        (car.parkedFacIdx = some fj ∧ (sj : ℤ) = car.parkedSpotIndex ∧
          (car.state = .ALIGNING ∨ car.state = .PARKED) ∧
          spotAt modules fj sj = some .RESERVED ∧
          spotAt (TrafficSystem.promoteStep modules car) fj sj =
            some .OCCUPIED)) ∧
    (∀ (modules : List Module) (car : Car),
      TrafficSystem.promoteStep (TrafficSystem.promoteStep modules car) car =
        TrafficSystem.promoteStep modules car) ∧
    (∀ (cfg : Config) (cosQ sinQ : ℚ → ℚ) (piQ dt minX maxX : ℚ)
      (modules : List Module) (car : Car) (rand : TrafficSystem.TickRand)
      (fj sj : ℕ),
      spotAt (TrafficSystem.tickCarStep cfg cosQ sinQ piQ dt minX maxX modules
        car rand).1 fj sj ≠ spotAt modules fj sj →
      spotAt (TrafficSystem.tickCarStep cfg cosQ sinQ piQ dt minX maxX modules
        car rand).1 fj sj = some .FREE →
      car.state = .PARKED ∧ car.parkedFacIdx = some fj ∧
        (sj : ℤ) = car.parkedSpotIndex ∧
        (TrafficSystem.tickCarStep cfg cosQ sinQ piQ dt minX maxX modules car
          rand).2.state = .EXITING ∧
        spotAt (TrafficSystem.promoteStep modules car) fj sj =
          some .OCCUPIED) ∧
    (∀ (cfg : Config) (cosQ sinQ : ℚ → ℚ) (piQ : ℚ)
      (trace : List (List Module)),
      List.Chain' (TrafficSystem.ModulesStep cfg cosQ sinQ piQ) trace →
      ∀ fj sj : ℕ,
        List.Chain' TrafficSystem.cycleOkTwo
          (trace.map fun ms => spotAt ms fj sj)) := by
  refine ⟨?_, ?_, ?_, ?_, ?_⟩
  · intro cfg cosQ sinQ piQ modules car rand fj sj
    exact TrafficSystem.spotAt_carSpawnedHandler_rel cfg cosQ sinQ piQ modules
      car rand fj sj
  · intro modules car fj sj
    exact TrafficSystem.spotAt_promoteStep modules car fj sj
  · intro modules car
    exact TrafficSystem.promoteStep_idem modules car
  · intro cfg cosQ sinQ piQ dt minX maxX modules car rand fj sj hchange hfree
    exact TrafficSystem.tickCarStep_free_owner cfg cosQ sinQ piQ dt minX maxX
      modules car rand fj sj hchange hfree
  · intro cfg cosQ sinQ piQ trace h fj sj
    rw [List.chain'_map]
    exact List.Chain'.imp
      (fun a b hstep =>
        TrafficSystem.modulesStep_cycleOkTwo cfg cosQ sinQ piQ a b hstep fj sj)
      h

/-- Witness for claim C1: on a concrete registry whose facility spot is
RESERVED and whose parked owner's timer has expired, the tick step frees the
spot, and the theorem's hypotheses hold by computation. -/
theorem claim_C1_witness :
    wCarParked.state = .PARKED ∧ wCarParked.parkedFacIdx = some 1 ∧
      ((0 : ℕ) : ℤ) = wCarParked.parkedSpotIndex ∧
      (TrafficSystem.tickCarStep wCfg wCos wSin 3 (1 / 60) 0 42 wModsRes
        wCarParked wTickRand).2.state = .EXITING ∧
      spotAt (TrafficSystem.promoteStep wModsRes wCarParked) 1 0 =
        some .OCCUPIED :=
  claim_C1.2.2.2.1 wCfg wCos wSin 3 (1 / 60) 0 42 wModsRes wCarParked
    wTickRand 1 0 (by decide) (by decide)

/-- Claim C2: getRandomSpotIndex returns the sentinel -1 exactly when the
facility has no FREE spot; with at least one FREE spot it returns a FREE
spot's index, uniformly: the result enumerates the duplicate-free FREE-index
list at position r % count, every FREE index is returned for some draw, and
the FREE count agrees with getSpotCounts. -/
theorem claim_C2 :
    (∀ (m : Module) (r : ℕ),
      m.getRandomSpotIndex r = -1 ↔ ∀ s ∈ m.spots, s.state ≠ .FREE) ∧
    (∀ (m : Module) (r : ℕ), m.getRandomSpotIndex r ≠ -1 →
      ∃ n : ℕ, m.getRandomSpotIndex r = (n : ℤ) ∧
        ∃ s, m.spots[n]? = some s ∧ s.state = .FREE) ∧
    (∀ (m : Module) (r : ℕ), freeIndices m.spots ≠ [] →
      m.getRandomSpotIndex r =
        (((freeIndices m.spots).getD (r % (freeIndices m.spots).length) 0 :
          ℕ) : ℤ)) ∧
    (∀ m : Module, (freeIndices m.spots).Nodup) ∧
    (∀ (m : Module) (n : ℕ) (s : Spot), m.spots[n]? = some s →
      s.state = .FREE → ∃ r, m.getRandomSpotIndex r = (n : ℤ)) ∧
    (∀ m : Module, m.getSpotCounts.free = (freeIndices m.spots).length) := by
  refine ⟨getRandomSpotIndex_eq_neg_one_iff, ?_, ?_, ?_, ?_, getSpotCounts_free⟩
  · intro m r h
    obtain ⟨n, hn, hmem⟩ := getRandomSpotIndex_ne_neg_one m r h
    obtain ⟨s, hs, hfree⟩ := free_of_mem_freeIndices m.spots n hmem
    exact ⟨n, hn, s, hs, hfree⟩
  · intro m r h
    unfold Module.getRandomSpotIndex
    rw [if_neg (by simpa [List.isEmpty_iff] using h)]
  · intro m
    exact nodup_freeIndicesFrom m.spots 0
  · intro m n s hs hfree
    exact getRandomSpotIndex_surjective m n
      ((mem_freeIndicesFrom m.spots 0 n).mpr ⟨n, by omega, s, hs, hfree⟩)

/-- Witness for claim C2: evaluated on a concrete one-spot facility. -/
theorem claim_C2_witness :
    (wFacA.getRandomSpotIndex 0 = -1 ↔ ∀ s ∈ wFacA.spots, s.state ≠ .FREE) ∧
      ∃ r, wFacA.getRandomSpotIndex r = ((0 : ℕ) : ℤ) :=
  ⟨claim_C2.1 wFacA 0,
   claim_C2.2.2.2.2.1 wFacA 0 wSpotA (by decide) (by decide)⟩

/-- Claim C3: the entry path returned by GeneratePath consists of exactly 4
waypoints; the last has stopAtEnd, entry angle equal to the spot's
orientation, position equal to the facility's world position plus the spot's
local position, and a tolerance strictly smaller than the tolerances of each
of the first three waypoints. -/
theorem claim_C3 (cfg : Config) (cosQ sinQ : ℚ → ℚ) (piQ : ℚ)
    (modules : List Module) (car : Car) (fac : Module) (spot : Spot) :
    (PathPlanner.GeneratePath cfg cosQ sinQ piQ modules car fac
      spot).length = 4 ∧
    ∃ w0 w1 w2 w3,
      PathPlanner.GeneratePath cfg cosQ sinQ piQ modules car fac spot =
        [w0, w1, w2, w3] ∧
      w3.stopAtEnd = true ∧ w3.entryAngle = spot.orientation ∧
      w3.position = fac.worldPosition.add spot.localPosition ∧
      w3.tolerance < w0.tolerance ∧ w3.tolerance < w1.tolerance ∧
      w3.tolerance < w2.tolerance := by
  unfold PathPlanner.GeneratePath
  cases h : fac.getParent modules with
  | some road =>
    refine ⟨rfl, _, _, _, _, rfl, rfl, rfl, rfl, ?_, ?_, ?_⟩ <;>
      norm_num [PathPlanner.CalculateRoadEntry,
        PathPlanner.CalculateFacilityEntry,
        PathPlanner.CalculateAlignmentPoint, PathPlanner.CalculateSpotPoint]
  | none =>
    refine ⟨rfl, _, _, _, _, rfl, rfl, rfl, rfl, ?_, ?_, ?_⟩ <;>
      norm_num [PathPlanner.CalculateFacilityEntry,
        PathPlanner.CalculateAlignmentPoint, PathPlanner.CalculateSpotPoint]

/-- Claim C4: the lane and the left/right side used by GeneratePath are a
pure function of (sign of the vehicle's x velocity, facility top/bottom):
positive x velocity always yields the DOWN lane and non-positive the UP lane,
exactly two lane values exist, a top facility yields the right-hand side and
a bottom facility the left-hand side, two calls agreeing on those two inputs
agree on lane and side, and the generated path is built from exactly those
two derived values. -/
theorem claim_C4 :
    (∀ v : ℚ, PathPlanner.laneFor v = Lane.DOWN ↔ 0 < v) ∧
    (∀ v : ℚ, PathPlanner.laneFor v = Lane.UP ↔ ¬0 < v) ∧
    (∀ l : Lane, l = Lane.UP ∨ l = Lane.DOWN) ∧
    (PathPlanner.sideFor true = true ∧ PathPlanner.sideFor false = false) ∧
    (∀ (v1 v2 : ℚ) (b1 b2 : Bool), (0 < v1 ↔ 0 < v2) → b1 = b2 →
      PathPlanner.laneFor v1 = PathPlanner.laneFor v2 ∧
        PathPlanner.sideFor b1 = PathPlanner.sideFor b2) ∧
    (∀ (cfg : Config) (cosQ sinQ : ℚ → ℚ) (piQ : ℚ) (modules : List Module)
      (car : Car) (fac : Module) (spot : Spot) (road : Module),
      fac.getParent modules = some road →
      PathPlanner.GeneratePath cfg cosQ sinQ piQ modules car fac spot =
        [PathPlanner.CalculateRoadEntry cfg road
            (PathPlanner.laneFor car.velocity.x)
            (PathPlanner.sideFor fac.isUp),
         PathPlanner.CalculateFacilityEntry cfg fac
            (PathPlanner.sideFor fac.isUp),
         PathPlanner.CalculateAlignmentPoint cosQ sinQ piQ fac spot,
         PathPlanner.CalculateSpotPoint fac spot]) := by
  refine ⟨?_, ?_, ?_, ⟨rfl, rfl⟩, ?_, ?_⟩
  · intro v
    unfold PathPlanner.laneFor
    by_cases h : 0 < v <;> simp [h]
  · intro v
    unfold PathPlanner.laneFor
    by_cases h : 0 < v <;> simp [h]
  · intro l
    cases l
    · exact Or.inl rfl
    · exact Or.inr rfl
  · intro v1 v2 b1 b2 hv hb
    refine ⟨?_, by rw [hb]⟩
    unfold PathPlanner.laneFor
    by_cases h : 0 < v1
    · rw [if_pos h, if_pos (hv.mp h)]
    · rw [if_neg h, if_neg (fun h2 => h (hv.mpr h2))]
  · intro cfg cosQ sinQ piQ modules car fac spot road h
    unfold PathPlanner.GeneratePath
    rw [h]

/-- The top-side parking attached to the road at registry index 0. -/
def wFacAP : Module := { wFacA with parentIdx := some 0 }

/-- Witness for claim C4: the determinism and path-shape conjuncts applied to
a concrete facility attached to a road. -/
theorem claim_C4_witness :
    (PathPlanner.laneFor 1 = PathPlanner.laneFor 2 ∧
      PathPlanner.sideFor true = PathPlanner.sideFor true) ∧
    PathPlanner.GeneratePath wCfg wCos wSin 3 [wRoad] wCarD wFacAP wSpotA =
      [PathPlanner.CalculateRoadEntry wCfg wRoad
          (PathPlanner.laneFor wCarD.velocity.x)
          (PathPlanner.sideFor wFacAP.isUp),
       PathPlanner.CalculateFacilityEntry wCfg wFacAP
          (PathPlanner.sideFor wFacAP.isUp),
       PathPlanner.CalculateAlignmentPoint wCos wSin 3 wFacAP wSpotA,
       PathPlanner.CalculateSpotPoint wFacAP wSpotA] :=
  ⟨claim_C4.2.2.2.2.1 1 2 true true (by norm_num) rfl,
   claim_C4.2.2.2.2.2 wCfg wCos wSin 3 [wRoad] wCarD wFacAP wSpotA wRoad
     (by decide)⟩

/-- Claim C9: the per-tick waypoint update pops the front waypoint exactly
when the vehicle is within that waypoint's own tolerance radius, and a popped
tail waypoint with stopAtEnd makes the vehicle arrived rather than
continuing. -/
theorem claim_C9 (c : Car) (w : Waypoint) (rest : List Waypoint)
    (hp : c.path = w :: rest) (ha : c.arrived = false) :
    (distSq c.position w.position < w.tolerance * w.tolerance →
      c.waypointTick.path = rest ∧
        (c.waypointTick.arrived = true ↔ rest = [] ∧ w.stopAtEnd = true)) ∧
    (¬distSq c.position w.position < w.tolerance * w.tolerance →
      c.waypointTick = c) := by
  constructor
  · intro hclose
    unfold Car.waypointTick
    rw [hp]
    dsimp only
    rw [if_pos hclose]
    by_cases hstop : (rest.isEmpty && w.stopAtEnd) = true
    · rw [if_pos hstop]
      rw [Bool.and_eq_true, List.isEmpty_iff] at hstop
      exact ⟨rfl, by simp [hstop.1, hstop.2]⟩
    · rw [if_neg hstop]
      rw [Bool.and_eq_true, List.isEmpty_iff] at hstop
      refine ⟨rfl, ?_⟩
      show c.arrived = true ↔ rest = [] ∧ w.stopAtEnd = true
      rw [ha]
      constructor
      · intro hx
        exact Bool.noConfusion hx
      · intro hcon
        exact absurd hcon hstop
  · intro hfar
    unfold Car.waypointTick
    rw [hp]
    dsimp only
    rw [if_neg hfar]

/-- A stop waypoint at the origin with tolerance 1. -/
def wWp : Waypoint := ⟨⟨0, 0⟩, 1, -1, 0, true, 1⟩

/-- The test car standing on wWp with it as its only waypoint. -/
def wCarWp : Car := { wCarD with path := [wWp] }

/-- Witness for claim C9: a car standing within its final stop waypoint's
tolerance pops it and is arrived. -/
theorem claim_C9_witness :
    wCarWp.waypointTick.path = [] ∧
      (wCarWp.waypointTick.arrived = true ↔
        ([] : List Waypoint) = [] ∧ wWp.stopAtEnd = true) :=
  (claim_C9 wCarWp wWp [] (by decide) (by decide)).1
    (by with_unfolding_all decide)

/-- Claim C10: when the target facility's parent road reference is null,
GeneratePath uses the facility's own entry point as the first waypoint: the
path still has exactly 4 waypoints and its first two waypoints are the
identical facility-entry waypoint for the chosen side. -/
theorem claim_C10 (cfg : Config) (cosQ sinQ : ℚ → ℚ) (piQ : ℚ)
    (modules : List Module) (car : Car) (fac : Module) (spot : Spot)
    (h : fac.getParent modules = none) :
    PathPlanner.GeneratePath cfg cosQ sinQ piQ modules car fac spot =
      [PathPlanner.CalculateFacilityEntry cfg fac
          (PathPlanner.sideFor fac.isUp),
       PathPlanner.CalculateFacilityEntry cfg fac
          (PathPlanner.sideFor fac.isUp),
       PathPlanner.CalculateAlignmentPoint cosQ sinQ piQ fac spot,
       PathPlanner.CalculateSpotPoint fac spot] ∧
    (PathPlanner.GeneratePath cfg cosQ sinQ piQ modules car fac
      spot).length = 4 ∧
    (PathPlanner.GeneratePath cfg cosQ sinQ piQ modules car fac spot)[0]? =
      (PathPlanner.GeneratePath cfg cosQ sinQ piQ modules car fac spot)[1]? := by
  have hmain : PathPlanner.GeneratePath cfg cosQ sinQ piQ modules car fac
      spot =
      [PathPlanner.CalculateFacilityEntry cfg fac
          (PathPlanner.sideFor fac.isUp),
       PathPlanner.CalculateFacilityEntry cfg fac
          (PathPlanner.sideFor fac.isUp),
       PathPlanner.CalculateAlignmentPoint cosQ sinQ piQ fac spot,
       PathPlanner.CalculateSpotPoint fac spot] := by
    unfold PathPlanner.GeneratePath
    rw [h]
  refine ⟨hmain, by rw [hmain]; rfl, ?_⟩
  rw [hmain]
  rfl

/-- The dwell/charge decision reads the randomness only through probSample. -/
theorem dwellDecision_probSample (cfg : Config) (dt : ℚ)
    (modules : List Module) (car : Car) (r1 r2 : TrafficSystem.TickRand)
    (h : r1.probSample = r2.probSample) :
    TrafficSystem.dwellDecision cfg dt modules car r1 =
      TrafficSystem.dwellDecision cfg dt modules car r2 := by
  unfold TrafficSystem.dwellDecision
  rw [h]

/-- An occupied charging facility fixture. -/
def wFacChg : Module :=
  ⟨.smallChargingStation, ⟨10, 0⟩, 10, 10, true, [],
   [{ wSpotA with state := .OCCUPIED }], none⟩

/-- The registry with the charging facility at index 1. -/
def wModsChg : List Module := [wRoad, wFacChg, wFacB]

/-- An electric vehicle parked at the charging facility with battery 90. -/
def wCarE : Car :=
  { wCarParked with type := .ELECTRIC, batteryLevel := 90 }

/-- Claim C8: a PARKED electric vehicle at a charging facility accrues battery
at the fixed charge rate times dt and decides to exit from battery alone —
unconditionally above the force-exit threshold, and in the band between the
exit and force-exit thresholds with a probability that is a monotonically
increasing affine function of battery — independent of the dwell timer; every
other PARKED vehicle (combustion anywhere, electric at a parking facility)
exits exactly when its dwell timer reports ready, and never from battery
logic. -/
theorem claim_C8 :
    (∀ (cfg : Config) (dt : ℚ) (modules : List Module) (car : Car)
      (rand : TrafficSystem.TickRand) (fi : ℕ) (fac : Module),
      car.state = .PARKED → car.parkedFacIdx = some fi →
      modules[fi]? = some fac → fac.kind.isCharging = true →
      car.type = .ELECTRIC →
      (TrafficSystem.dwellDecision cfg dt modules car rand).1 =
        { car with batteryLevel := car.batteryLevel + cfg.CHARGING_RATE * dt } ∧
      ((TrafficSystem.dwellDecision cfg dt modules car rand).2 = true ↔
        (cfg.BATTERY_FORCE_EXIT_THRESHOLD <
            car.batteryLevel + cfg.CHARGING_RATE * dt ∨
          (cfg.BATTERY_EXIT_THRESHOLD <
              car.batteryLevel + cfg.CHARGING_RATE * dt ∧
            rand.probSample < TrafficSystem.exitProbability cfg dt
              (car.batteryLevel + cfg.CHARGING_RATE * dt))))) ∧
    (∀ (cfg : Config) (dt : ℚ) (modules : List Module) (car : Car)
      (rand : TrafficSystem.TickRand) (fi : ℕ) (fac : Module) (b1 b2 : Bool),
      car.state = .PARKED → car.parkedFacIdx = some fi →
      modules[fi]? = some fac → fac.kind.isCharging = true →
      car.type = .ELECTRIC →
      (TrafficSystem.dwellDecision cfg dt modules
          { car with readyToLeave := b1 } rand).2 =
        (TrafficSystem.dwellDecision cfg dt modules
          { car with readyToLeave := b2 } rand).2) ∧
    (∀ (cfg : Config) (dt : ℚ) (modules : List Module) (car : Car)
      (rand : TrafficSystem.TickRand),
      car.state = .PARKED → car.type = .COMBUSTION →
      TrafficSystem.dwellDecision cfg dt modules car rand =
        (car, car.readyToLeave)) ∧
    (∀ (cfg : Config) (dt : ℚ) (modules : List Module) (car : Car)
      (rand : TrafficSystem.TickRand) (fi : ℕ) (fac : Module),
      car.state = .PARKED → car.parkedFacIdx = some fi →
      modules[fi]? = some fac → fac.kind.isCharging = false →
      TrafficSystem.dwellDecision cfg dt modules car rand =
        (car, car.readyToLeave)) ∧
    (∀ (cfg : Config) (dt b1 b2 : ℚ),
      cfg.BATTERY_EXIT_THRESHOLD < cfg.BATTERY_FORCE_EXIT_THRESHOLD →
      0 ≤ dt → b1 ≤ b2 →
      TrafficSystem.exitProbability cfg dt b1 ≤
        TrafficSystem.exitProbability cfg dt b2) ∧
    (∀ (cfg : Config) (dt b : ℚ),
      TrafficSystem.exitProbability cfg dt b =
        (1 / 2) * dt /
            (cfg.BATTERY_FORCE_EXIT_THRESHOLD - cfg.BATTERY_EXIT_THRESHOLD) *
          (b - cfg.BATTERY_EXIT_THRESHOLD)) := by
  have hcharge : ∀ (cfg : Config) (dt : ℚ) (modules : List Module) (car : Car)
      (rand : TrafficSystem.TickRand) (fi : ℕ) (fac : Module),
      car.state = .PARKED → car.parkedFacIdx = some fi →
      modules[fi]? = some fac → fac.kind.isCharging = true →
      car.type = .ELECTRIC →
      (TrafficSystem.dwellDecision cfg dt modules car rand).1 =
        { car with batteryLevel := car.batteryLevel + cfg.CHARGING_RATE * dt } ∧
      ((TrafficSystem.dwellDecision cfg dt modules car rand).2 = true ↔
        (cfg.BATTERY_FORCE_EXIT_THRESHOLD <
            car.batteryLevel + cfg.CHARGING_RATE * dt ∨
          (cfg.BATTERY_EXIT_THRESHOLD <
              car.batteryLevel + cfg.CHARGING_RATE * dt ∧
            rand.probSample < TrafficSystem.exitProbability cfg dt
              (car.batteryLevel + cfg.CHARGING_RATE * dt)))) := by
    intro cfg dt modules car rand fi fac hstate hfi hlook hchg htype
    have hpf : (car.parkedFacIdx.bind fun j => modules[j]?) = some fac := by
      rw [hfi]
      simpa using hlook
    have hcond : (((car.parkedFacIdx.bind fun fi => modules[fi]?).map fun f =>
        f.kind.isCharging).getD false && decide (car.type = .ELECTRIC)) =
        true := by
      rw [hpf]
      simp [hchg, htype]
    unfold TrafficSystem.dwellDecision
    rw [if_pos hstate]
    simp only
    rw [if_pos hcond]
    by_cases h1 : cfg.BATTERY_FORCE_EXIT_THRESHOLD <
        car.batteryLevel + cfg.CHARGING_RATE * dt
    · simp only [if_pos h1]
      exact ⟨by trivial, by simp [h1]⟩
    · rw [if_neg h1]
      by_cases h2 : cfg.BATTERY_EXIT_THRESHOLD <
          car.batteryLevel + cfg.CHARGING_RATE * dt
      · simp only [if_pos h2]
        refine ⟨by trivial, ?_⟩
        simp [h1, h2]
      · rw [if_neg h2]
        exact ⟨by trivial, by simp [h1, h2]⟩
  refine ⟨hcharge, ?_, ?_, ?_, ?_, ?_⟩
  · intro cfg dt modules car rand fi fac b1 b2 hstate hfi hlook hchg htype
    have h1 := (hcharge cfg dt modules { car with readyToLeave := b1 } rand fi
      fac hstate hfi hlook hchg htype).2
    have h2 := (hcharge cfg dt modules { car with readyToLeave := b2 } rand fi
      fac hstate hfi hlook hchg htype).2
    have : ((TrafficSystem.dwellDecision cfg dt modules
        { car with readyToLeave := b1 } rand).2 = true ↔
        (TrafficSystem.dwellDecision cfg dt modules
          { car with readyToLeave := b2 } rand).2 = true) := h1.trans h2.symm
    exact Bool.coe_iff_coe.mp this
  · intro cfg dt modules car rand hstate htype
    unfold TrafficSystem.dwellDecision
    rw [if_pos hstate]
    rw [if_neg (by simp [htype])]
  · intro cfg dt modules car rand fi fac hstate hfi hlook hchg
    have hpf : (car.parkedFacIdx.bind fun j => modules[j]?) = some fac := by
      rw [hfi]
      simpa using hlook
    unfold TrafficSystem.dwellDecision
    rw [if_pos hstate]
    rw [if_neg (by simp [hpf, hchg])]
  · intro cfg dt b1 b2 hEF hdt hb
    unfold TrafficSystem.exitProbability
    have hk : (0 : ℚ) ≤ (1 / 2) * dt /
        (cfg.BATTERY_FORCE_EXIT_THRESHOLD - cfg.BATTERY_EXIT_THRESHOLD) :=
      div_nonneg (mul_nonneg (by norm_num) hdt)
        (le_of_lt (sub_pos.mpr hEF))
    have haff : ∀ b : ℚ, (1 / 2) *
        ((b - cfg.BATTERY_EXIT_THRESHOLD) /
          (cfg.BATTERY_FORCE_EXIT_THRESHOLD - cfg.BATTERY_EXIT_THRESHOLD)) *
        dt =
        (1 / 2) * dt /
            (cfg.BATTERY_FORCE_EXIT_THRESHOLD - cfg.BATTERY_EXIT_THRESHOLD) *
          (b - cfg.BATTERY_EXIT_THRESHOLD) := fun b => by ring
    rw [haff, haff]
    exact mul_le_mul_of_nonneg_left (sub_le_sub_right hb _) hk
  · intro cfg dt b
    unfold TrafficSystem.exitProbability
    ring

/-- Witness for claim C8: the charging branch evaluated on an electric
vehicle parked at a concrete charging facility. -/
theorem claim_C8_witness :
    (TrafficSystem.dwellDecision wCfg (1 / 60) wModsChg wCarE wTickRand).1 =
      { wCarE with
        batteryLevel := wCarE.batteryLevel + wCfg.CHARGING_RATE * (1 / 60) } ∧
    ((TrafficSystem.dwellDecision wCfg (1 / 60) wModsChg wCarE
        wTickRand).2 = true ↔
      (wCfg.BATTERY_FORCE_EXIT_THRESHOLD <
          wCarE.batteryLevel + wCfg.CHARGING_RATE * (1 / 60) ∨
        (wCfg.BATTERY_EXIT_THRESHOLD <
            wCarE.batteryLevel + wCfg.CHARGING_RATE * (1 / 60) ∧
          wTickRand.probSample < TrafficSystem.exitProbability wCfg (1 / 60)
            (wCarE.batteryLevel + wCfg.CHARGING_RATE * (1 / 60))))) :=
  claim_C8.1 wCfg (1 / 60) wModsChg wCarE wTickRand 1 wFacChg (by decide)
    (by decide) (by decide) (by decide) (by decide)

/-- Claim C7: when a parked vehicle decides to exit during a tick, its spot is
released to FREE and the exit path is computed against the already-updated
registry (release before path computation); the exit direction is the
negation of enteredFromLeft for a DISTANCE-priority vehicle — independent of
the random source — and the random coin for every other vehicle; the vehicle
is switched to EXITING. -/
theorem claim_C7 (cfg : Config) (cosQ sinQ : ℚ → ℚ) (piQ dt minX maxX : ℚ)
    (modules : List Module) (car : Car) (rand : TrafficSystem.TickRand)
    (fi : ℕ) (fac : Module)
    (hfi : car.parkedFacIdx = some fi) (hlook : modules[fi]? = some fac)
    (hpos : ¬car.parkedSpotIndex < 0)
    (hdec : (TrafficSystem.dwellDecision cfg dt modules car rand).2 = true) :
    car.state = .PARKED ∧
    (TrafficSystem.dwellExitStep cfg cosQ sinQ piQ dt minX maxX modules car
        rand).1 =
      modules.set fi (fac.setSpotState car.parkedSpotIndex .FREE) ∧
    (TrafficSystem.dwellExitStep cfg cosQ sinQ piQ dt minX maxX modules car
        rand).2.state = .EXITING ∧
    (TrafficSystem.dwellExitStep cfg cosQ sinQ piQ dt minX maxX modules car
        rand).2.path =
      PathPlanner.GenerateExitPath cfg cosQ sinQ piQ
        (modules.set fi (fac.setSpotState car.parkedSpotIndex .FREE))
        (fac.setSpotState car.parkedSpotIndex .FREE)
        (car.parkedSpot.getD defaultSpot)
        (if car.priority = .PRIORITY_DISTANCE then !car.enteredFromLeft
         else rand.exitCoin)
        (if (if car.priority = .PRIORITY_DISTANCE then !car.enteredFromLeft
             else rand.exitCoin) = true then maxX + 2 else minX - 2) ∧
    (car.priority = .PRIORITY_DISTANCE →
      ∀ rand' : TrafficSystem.TickRand, rand'.probSample = rand.probSample →
        TrafficSystem.dwellExitStep cfg cosQ sinQ piQ dt minX maxX modules car
            rand =
          TrafficSystem.dwellExitStep cfg cosQ sinQ piQ dt minX maxX modules
            car rand') := by
  obtain ⟨β, hcar1⟩ := TrafficSystem.dwellDecision_fst cfg dt modules car rand
  have hparked := TrafficSystem.dwellDecision_parked_of_snd cfg dt modules car
    rand hdec
  have hne : car.parkedSpotIndex ≠ -1 := by omega
  refine ⟨hparked, ?_⟩
  have hbody : TrafficSystem.dwellExitStep cfg cosQ sinQ piQ dt minX maxX
      modules car rand =
      TrafficSystem.exitRelease cfg cosQ sinQ piQ minX maxX modules
        (TrafficSystem.dwellDecision cfg dt modules car rand).1
        (TrafficSystem.dwellDecision cfg dt modules car rand).2 rand := rfl
  rw [hbody, hdec, hcar1]
  have hred : TrafficSystem.exitRelease cfg cosQ sinQ piQ minX maxX modules
      { car with batteryLevel := β } true rand =
      (modules.set fi (fac.setSpotState car.parkedSpotIndex .FREE),
       { car with
          batteryLevel := β
          path := PathPlanner.GenerateExitPath cfg cosQ sinQ piQ
            (modules.set fi (fac.setSpotState car.parkedSpotIndex .FREE))
            (fac.setSpotState car.parkedSpotIndex .FREE)
            (car.parkedSpot.getD defaultSpot)
            (if car.priority = .PRIORITY_DISTANCE then !car.enteredFromLeft
             else rand.exitCoin)
            (if (if car.priority = .PRIORITY_DISTANCE then
                  !car.enteredFromLeft
                 else rand.exitCoin) = true then maxX + 2 else minX - 2)
          state := .EXITING }) := by
    unfold TrafficSystem.exitRelease
    rw [if_pos rfl]
    show (match ({ car with batteryLevel := β } : Car).parkedFacIdx with
      | none => _
      | some fi => _) = _
    rw [show ({ car with batteryLevel := β } : Car).parkedFacIdx =
      some fi from hfi]
    dsimp only
    rw [hlook]
    dsimp only
    simp only [if_pos hne]
  rw [hred]
  refine ⟨rfl, rfl, rfl, ?_⟩
  intro hpri rand' hps
  have hdd : TrafficSystem.dwellDecision cfg dt modules car rand =
      TrafficSystem.dwellDecision cfg dt modules car rand' :=
    dwellDecision_probSample cfg dt modules car rand rand' hps.symm
  have hbody' : TrafficSystem.dwellExitStep cfg cosQ sinQ piQ dt minX maxX
      modules car rand' =
      TrafficSystem.exitRelease cfg cosQ sinQ piQ minX maxX modules
        (TrafficSystem.dwellDecision cfg dt modules car rand').1
        (TrafficSystem.dwellDecision cfg dt modules car rand').2 rand' := rfl
  have hred' : TrafficSystem.exitRelease cfg cosQ sinQ piQ minX maxX modules
      { car with batteryLevel := β } true rand' =
      (modules.set fi (fac.setSpotState car.parkedSpotIndex .FREE),
       { car with
          batteryLevel := β
          path := PathPlanner.GenerateExitPath cfg cosQ sinQ piQ
            (modules.set fi (fac.setSpotState car.parkedSpotIndex .FREE))
            (fac.setSpotState car.parkedSpotIndex .FREE)
            (car.parkedSpot.getD defaultSpot)
            (if car.priority = .PRIORITY_DISTANCE then !car.enteredFromLeft
             else rand'.exitCoin)
            (if (if car.priority = .PRIORITY_DISTANCE then
                  !car.enteredFromLeft
                 else rand'.exitCoin) = true then maxX + 2 else minX - 2)
          state := .EXITING }) := by
    unfold TrafficSystem.exitRelease
    rw [if_pos rfl]
    show (match ({ car with batteryLevel := β } : Car).parkedFacIdx with
      | none => _
      | some fi => _) = _
    rw [show ({ car with batteryLevel := β } : Car).parkedFacIdx =
      some fi from hfi]
    dsimp only
    rw [hlook]
    dsimp only
    simp only [if_pos hne]
  rw [hbody', ← hdd, hdec, hcar1, hred']
  simp only [if_pos hpri]

/-- Witness for claim C7: the exit of the parked timer-expired vehicle on the
concrete registry. -/
theorem claim_C7_witness :
    wCarParked.state = .PARKED ∧
    (TrafficSystem.dwellExitStep wCfg wCos wSin 3 (1 / 60) 0 42 wModsRes
        wCarParked wTickRand).1 =
      wModsRes.set 1
        ((wModsRes.getD 1 wRoad).setSpotState wCarParked.parkedSpotIndex
          .FREE) ∧
    (TrafficSystem.dwellExitStep wCfg wCos wSin 3 (1 / 60) 0 42 wModsRes
        wCarParked wTickRand).2.state = .EXITING ∧
    (TrafficSystem.dwellExitStep wCfg wCos wSin 3 (1 / 60) 0 42 wModsRes
        wCarParked wTickRand).2.path =
      PathPlanner.GenerateExitPath wCfg wCos wSin 3
        (wModsRes.set 1
          ((wModsRes.getD 1 wRoad).setSpotState wCarParked.parkedSpotIndex
            .FREE))
        ((wModsRes.getD 1 wRoad).setSpotState wCarParked.parkedSpotIndex
          .FREE)
        (wCarParked.parkedSpot.getD defaultSpot)
        (if wCarParked.priority = .PRIORITY_DISTANCE then
          !wCarParked.enteredFromLeft
         else wTickRand.exitCoin)
        (if (if wCarParked.priority = .PRIORITY_DISTANCE then
              !wCarParked.enteredFromLeft
             else wTickRand.exitCoin) = true then (42 : ℚ) + 2
         else (0 : ℚ) - 2) ∧
    (wCarParked.priority = .PRIORITY_DISTANCE →
      ∀ rand' : TrafficSystem.TickRand,
        rand'.probSample = wTickRand.probSample →
        TrafficSystem.dwellExitStep wCfg wCos wSin 3 (1 / 60) 0 42 wModsRes
            wCarParked wTickRand =
          TrafficSystem.dwellExitStep wCfg wCos wSin 3 (1 / 60) 0 42 wModsRes
            wCarParked rand') :=
  claim_C7 wCfg wCos wSin 3 (1 / 60) 0 42 wModsRes wCarParked wTickRand 1
    (wModsRes.getD 1 wRoad) (by decide) (by decide) (by decide) (by decide)

/-- Witness for claim C10: the fallback evaluated on a concrete facility with
no parent road. -/
theorem claim_C10_witness :
    PathPlanner.GeneratePath wCfg wCos wSin 3 wMods wCarD wFacA wSpotA =
      [PathPlanner.CalculateFacilityEntry wCfg wFacA
          (PathPlanner.sideFor wFacA.isUp),
       PathPlanner.CalculateFacilityEntry wCfg wFacA
          (PathPlanner.sideFor wFacA.isUp),
       PathPlanner.CalculateAlignmentPoint wCos wSin 3 wFacA wSpotA,
       PathPlanner.CalculateSpotPoint wFacA wSpotA] ∧
    (PathPlanner.GeneratePath wCfg wCos wSin 3 wMods wCarD wFacA
      wSpotA).length = 4 ∧
    (PathPlanner.GeneratePath wCfg wCos wSin 3 wMods wCarD wFacA wSpotA)[0]? =
      (PathPlanner.GeneratePath wCfg wCos wSin 3 wMods wCarD wFacA
        wSpotA)[1]? :=
  claim_C10 wCfg wCos wSin 3 wMods wCarD wFacA wSpotA (by decide)

/-- C5: in the CarSpawnedEvent handler's selection loops, a DISTANCE-priority
vehicle's elected facility has a free spot and minimises the spawn-point
distance (squared-distance formulation) among the eligible facilities with a
free spot — and some facility is elected whenever one has a free spot; a
PRICE-priority vehicle's elected facility sampled a free spot whose price is
lowest among all sampled free spots.  Concretely, against a facility of one
free spot priced 5 at distance 10 and one priced 2 at distance 50, the
DISTANCE vehicle reserves the first (registry index 1) and the PRICE vehicle
the second (registry index 2), with the chosen spot left RESERVED. -/
theorem claim_C5 :
    (∀ (carPos : Vec2) (spotR : ℕ → ℕ) (facs : List (ℕ × Module)) (fi : ℕ)
        (fac : Module),
      (TrafficSystem.selectDistance carPos spotR facs
          TrafficSystem.SelState.init).target = some (fi, fac) →
      (fi, fac) ∈ facs ∧ 0 < fac.getSpotCounts.free ∧
        ∀ p ∈ facs, 0 < p.2.getSpotCounts.free →
          distSq carPos fac.worldPosition ≤ distSq carPos p.2.worldPosition) ∧
    (∀ (carPos : Vec2) (spotR : ℕ → ℕ) (facs : List (ℕ × Module)),
      (∃ p ∈ facs, 0 < p.2.getSpotCounts.free) →
      (TrafficSystem.selectDistance carPos spotR facs
          TrafficSystem.SelState.init).target ≠ none) ∧
    (∀ (spotR : ℕ → ℕ) (facs : List (ℕ × Module)) (fi : ℕ) (fac : Module),
      (TrafficSystem.selectPrice spotR facs
          TrafficSystem.SelState.init).target = some (fi, fac) →
      (fi, fac) ∈ facs ∧ fac.getRandomSpotIndex (spotR fi) ≠ -1 ∧
        ∀ p ∈ facs, p.2.getRandomSpotIndex (spotR p.1) ≠ -1 →
          (fac.getSpot (fac.getRandomSpotIndex (spotR fi))).price ≤
            (p.2.getSpot (p.2.getRandomSpotIndex (spotR p.1))).price) ∧
    ((TrafficSystem.carSpawnedHandler wCfg wCos wSin 3 wMods wCarD
        wSpawnRand).2.parkedFacIdx = some 1 ∧
      spotAt (TrafficSystem.carSpawnedHandler wCfg wCos wSin 3 wMods wCarD
        wSpawnRand).1 1 0 = some .RESERVED) ∧
    ((TrafficSystem.carSpawnedHandler wCfg wCos wSin 3 wMods wCarP
        wSpawnRand).2.parkedFacIdx = some 2 ∧
      spotAt (TrafficSystem.carSpawnedHandler wCfg wCos wSin 3 wMods wCarP
        wSpawnRand).1 2 0 = some .RESERVED) := by
  refine ⟨fun carPos spotR facs fi fac h =>
      TrafficSystem.selectDistance_target_spec carPos spotR facs fi fac h,
    fun carPos spotR facs h =>
      TrafficSystem.selectDistance_target_some carPos spotR facs h,
    fun spotR facs fi fac h => ?_, ⟨?_, ?_⟩, ⟨?_, ?_⟩⟩
  · obtain ⟨h1, h2, _, h4⟩ :=
      TrafficSystem.selectPrice_target_spec spotR facs fi fac h
    exact ⟨h1, h2, h4⟩
  · with_unfolding_all decide
  · with_unfolding_all decide
  · with_unfolding_all decide
  · with_unfolding_all decide

/-- C6: when some facility is eligible but none has a free spot, the spawn
handler reserves nothing (the registry is unchanged) and instead gives the
vehicle a single-waypoint through-path: the waypoint has stopAtEnd and lies
strictly beyond every road edge in the direction of travel, and the vehicle
leaves in state EXITING. -/
theorem claim_C6 (cfg : Config) (cosQ sinQ : ℚ → ℚ) (piQ : ℚ)
    (modules : List Module) (car : Car) (rand : TrafficSystem.SpawnRand)
    (hne : ¬(TrafficSystem.facilitiesWithFallback modules car
      (TrafficSystem.decideSeekCharging cfg car rand.chargeSample)).isEmpty)
    (hfull : ∀ p ∈ TrafficSystem.facilitiesWithFallback modules car
        (TrafficSystem.decideSeekCharging cfg car rand.chargeSample),
      p.2.getSpotCounts.free = 0) :
    (TrafficSystem.carSpawnedHandler cfg cosQ sinQ piQ modules car rand).1 =
      modules ∧
    ∃ wp : Waypoint,
      (TrafficSystem.carSpawnedHandler cfg cosQ sinQ piQ modules car
          rand).2 =
        { car with path := [wp], state := .EXITING } ∧
      wp.stopAtEnd = true ∧
      (0 < car.velocity.x →
        ∀ m ∈ modules, m.kind = .normalRoad →
          m.worldPosition.x + m.width < wp.position.x) ∧
      (¬0 < car.velocity.x →
        ∀ m ∈ modules, m.kind = .normalRoad →
          wp.position.x < m.worldPosition.x) := by
  rw [TrafficSystem.carSpawnedHandler_through cfg cosQ sinQ piQ modules car
    rand hne hfull]
  simp only [TrafficSystem.throughTraffic]
  by_cases hv : 0 < car.velocity.x
  · have hmr : decide (0 < car.velocity.x) = true := decide_eq_true hv
    rw [hmr, if_pos rfl]
    refine ⟨by trivial,
      ⟨{ position := ⟨TrafficSystem.roadMaxX modules + 2, car.position.y⟩
         tolerance := 1, id := -1, entryAngle := 0, stopAtEnd := true
         speedLimitFactor := 1 }, rfl, rfl, ?_, fun hv2 => absurd hv hv2⟩⟩
    intro _ m hm hk
    have hb := TrafficSystem.roadMaxX_ge modules m hm hk
    show m.worldPosition.x + m.width < TrafficSystem.roadMaxX modules + 2
    linarith
  · have hmr : decide (0 < car.velocity.x) = false :=
      decide_eq_false hv
    rw [hmr, if_neg (by simp)]
    refine ⟨by trivial,
      ⟨{ position := ⟨TrafficSystem.roadMinX modules - 2, car.position.y⟩
         tolerance := 1, id := -1, entryAngle := 0, stopAtEnd := true
         speedLimitFactor := 1 }, rfl, rfl, fun hv2 => absurd hv2 hv, ?_⟩⟩
    intro _ m hm hk
    have hb := TrafficSystem.roadMinX_le modules m hm hk
    show TrafficSystem.roadMinX modules - 2 < m.worldPosition.x
    linarith

/-- C6 witness: a concrete registry whose two facilities are both full — the
spawned vehicle keeps the registry intact and exits on a single through
waypoint beyond every road edge. -/
theorem claim_C6_witness :
    (TrafficSystem.carSpawnedHandler wCfg wCos wSin 3 wModsFull wCarD
        wSpawnRand).1 = wModsFull ∧
    ∃ wp : Waypoint,
      (TrafficSystem.carSpawnedHandler wCfg wCos wSin 3 wModsFull wCarD
          wSpawnRand).2 =
        { wCarD with path := [wp], state := .EXITING } ∧
      wp.stopAtEnd = true ∧
      (0 < wCarD.velocity.x →
        ∀ m ∈ wModsFull, m.kind = .normalRoad →
          m.worldPosition.x + m.width < wp.position.x) ∧
      (¬0 < wCarD.velocity.x →
        ∀ m ∈ wModsFull, m.kind = .normalRoad →
          wp.position.x < m.worldPosition.x) :=
  claim_C6 wCfg wCos wSin 3 wModsFull wCarD wSpawnRand
    (by with_unfolding_all decide) (by with_unfolding_all decide)

end ParkLogic
